import Mathlib

/-!
# The Gemini recognition adapter: `recognize` of `src/main.js`

A shallow embedding of the single function `recognize(base64, lang, options)`.

* JavaScript values are the values a configuration store or a JSON response can hold:
  `undefined`, `null`, booleans, numbers (IEEE-754 binary64), strings, arrays and data
  objects with arbitrary property names.  Functions and symbols are not values of this
  universe, so no property of an object can be called.
* The built-in operations the function relies on (`ToBoolean`, `ToString`, `ToNumber`,
  `Array.prototype.join`, `String.prototype.trim`, `JSON.stringify`, property reads and
  optional chaining) are embedded after ECMA-262, with the `TypeError` they raise: a
  conversion or a read that throws gives `none`.
* `fetch` and `Body.json` are capabilities supplied by the host; the embedding takes them
  as arguments and records every call of `fetch` in a trace.
* The statements of `recognize` are evaluated in the order of the source.
-/

namespace Gemini

/-! ## Strings -/

/-- White space and line terminators of ECMA-262 (the characters removed by
`String.prototype.trim` and skipped around a numeric string). -/
def isWhiteSpace (c : Char) : Bool :=
  let n := c.toNat
  n == 0x9 || n == 0xA || n == 0xB || n == 0xC || n == 0xD || n == 0x20 || n == 0xA0 ||
  n == 0x1680 || (0x2000 ≤ n && n ≤ 0x200A) || n == 0x2028 || n == 0x2029 ||
  n == 0x202F || n == 0x205F || n == 0x3000 || n == 0xFEFF

/-- Drop the white space at the front of a character list. -/
def trimStart (cs : List Char) : List Char := cs.dropWhile isWhiteSpace

/-- Drop the white space at the back of a character list. -/
def trimEnd (cs : List Char) : List Char := (cs.reverse.dropWhile isWhiteSpace).reverse

/-- The method `String.prototype.trim`. -/
def trim (s : String) : String := ⟨trimEnd (trimStart s.data)⟩

/-- The character of a digit `d < 16` (lower case, as `Number::toString` and the `\u`
escapes of `JSON.stringify` print it). -/
def digitChar (d : Nat) : Char := "0123456789abcdef".data.getD d '0'

/-- Decimal digits of `n`, most significant first; `fuel` bounds the number of digits. -/
def decDigitsAux : Nat → Nat → List Char → List Char
  | 0, _, acc => acc
  | fuel + 1, n, acc =>
    if n < 10 then digitChar n :: acc
    else decDigitsAux fuel (n / 10) (digitChar (n % 10) :: acc)

/-- Decimal digits of a natural number below `10 ^ 400` (every integer part of a
binary64 value is). -/
def decDigits (n : Nat) : List Char := decDigitsAux 400 n []

/-! ## Numbers: IEEE-754 binary64 -/

/-- A JavaScript Number: the single `NaN`, the two infinities, and the finite binary64
values given by sign, biased exponent `0 .. 2046` and 52-bit fraction.  Biased exponent
`0` holds the zeros and the subnormal values. -/
inductive JSNumber where
  | nan
  | inf (neg : Bool)
  | fin (neg : Bool) (expo : Fin 2047) (frac : Fin (2 ^ 52))
  deriving DecidableEq

namespace JSNumber

/-- The integer significand of a finite value. -/
def mant (expo : Fin 2047) (frac : Fin (2 ^ 52)) : Nat :=
  if expo.val = 0 then frac.val else 2 ^ 52 + frac.val

/-- The binary exponent of the integer significand: the value is `mant * 2 ^ exp2`. -/
def exp2 (expo : Fin 2047) : Int := (max expo.val 1 : Nat) - 1075

/-- Signed zero. -/
def zero (neg : Bool) : JSNumber := .fin neg ⟨0, by decide⟩ ⟨0, by decide⟩

/-- Pack a rounded significand `q ≤ 2 ^ 53 - 1` with its exponent `e ≥ -1074`; a
significand below `2 ^ 52` only occurs at `e = -1074` (zero and subnormal values), and an
exponent past the largest finite one gives an infinity. -/
def pack (neg : Bool) (q : Nat) (e : Int) : JSNumber :=
  if q < 2 ^ 52 then .fin neg ⟨0, by decide⟩ ⟨q % 2 ^ 52, Nat.mod_lt _ (by decide)⟩
  else
    let be := (e + 1075).toNat
    if h : be < 2047 then .fin neg ⟨be, h⟩ ⟨(q - 2 ^ 52) % 2 ^ 52, Nat.mod_lt _ (by decide)⟩
    else .inf neg

/-- Binary logarithm by repeated halving, at most `fuel` times. -/
def log2Aux : Nat → Nat → Nat
  | 0, _ => 0
  | fuel + 1, n => if n < 2 then 0 else log2Aux fuel (n / 2) + 1

/-- The binary logarithm `⌊log₂ n⌋` of a positive number. -/
def log2 (n : Nat) : Nat := log2Aux n n

/-- The quotient `⌊(n / d) / 2 ^ e⌋`. -/
def scaledDiv (n d : Nat) (e : Int) : Nat := (n * 2 ^ (-e).toNat) / (d * 2 ^ e.toNat)

/-- The Number nearest to `± n / d`, ties to even (the rounding of ECMA-262 for numeric
literals): the significand is cut to 53 bits, or to fewer in the subnormal range. -/
def ofFraction (neg : Bool) (n d : Nat) : JSNumber :=
  if n = 0 ∨ d = 0 then zero neg
  else
    let l : Int := (log2 n : Int) - (log2 d : Int)
    if l > 1100 then .inf neg
    else if l < -1100 then zero neg
    else
      let e1 := l - 52
      let e2 := if scaledDiv n d e1 < 2 ^ 52 then e1 - 1 else e1
      let e := max e2 (-1074)
      let num := n * 2 ^ (-e).toNat
      let den := d * 2 ^ e.toNat
      let q := num / den
      let r := num % den
      let q1 := if den < 2 * r ∨ (2 * r = den ∧ q % 2 = 1) then q + 1 else q
      if q1 = 2 ^ 53 then pack neg (2 ^ 52) (e + 1) else pack neg q1 e

/-- The Number of a natural number literal. -/
def ofNat (n : Nat) : JSNumber := ofFraction false n 1

/-- The least `j` (searched upwards from `j`, within `fuel` steps) with
`d ≤ n * 10 ^ (j + 1)`. -/
def leadingZeros : Nat → Nat → Nat → Nat → Nat
  | 0, _, _, j => j
  | fuel + 1, n, d, j => if d ≤ n * 10 ^ (j + 1) then j else leadingZeros fuel n d (j + 1)

/-- The decimal exponent `n` of a positive `v = N / D`: `10 ^ (n - 1) ≤ v < 10 ^ n`. -/
def decExp (N D : Nat) : Int :=
  if D ≤ N then ((decDigits (N / D)).length : Int)
  else - (leadingZeros 400 N D 0 : Int)

/-- Step 5 of `Number::toString`: the shortest decimal `s * 10 ^ (n - k)` that rounds to
`x`, the positive value `N / D`; among two of the same length the nearer one, then the
even one.  Tried for `k`, `k + 1`, ... (`fuel` lengths); 17 digits always suffice. -/
def shortest (x : JSNumber) (N D : Nat) (n : Int) : Nat → Nat → Nat × Nat
  | 0, k => ((N * 10 ^ ((k : Int) - n).toNat) / (D * 10 ^ (n - (k : Int)).toNat), k)
  | fuel + 1, k =>
    let p : Int := (k : Int) - n
    let A := N * 10 ^ p.toNat
    let B := D * 10 ^ (-p).toNat
    let lo := A / B
    let r := A % B
    let okLo := decide (ofFraction false (lo * 10 ^ (-p).toNat) (10 ^ p.toNat) = x)
    let okHi := decide (ofFraction false ((lo + 1) * 10 ^ (-p).toNat) (10 ^ p.toNat) = x)
    if okLo && okHi then
      (if 2 * r < B ∨ (2 * r = B ∧ lo % 2 = 0) then (lo, k) else (lo + 1, k))
    else if okLo then (lo, k)
    else if okHi then (lo + 1, k)
    else shortest x N D n fuel (k + 1)

/-- Steps 6 to 10 of `Number::toString`: lay out the `k` digits `ds` of the decimal
`0.ds * 10 ^ n`. -/
def layout (ds : List Char) (n : Int) : List Char :=
  let k : Int := ds.length
  if k ≤ n ∧ n ≤ 21 then ds ++ List.replicate (n - k).toNat '0'
  else if 0 < n ∧ n ≤ 21 then ds.take n.toNat ++ '.' :: ds.drop n.toNat
  else if -6 < n ∧ n ≤ 0 then '0' :: '.' :: (List.replicate (-n).toNat '0' ++ ds)
  else
    let e := n - 1
    let tail := 'e' :: (if 0 ≤ e then '+' else '-') :: decDigits e.natAbs
    if ds.length = 1 then ds ++ tail
    else ds.take 1 ++ '.' :: (ds.drop 1 ++ tail)

/-- The abstract operation `Number::toString` (radix 10). -/
def toString : JSNumber → String
  | nan => "NaN"
  | inf false => "Infinity"
  | inf true => "-Infinity"
  | fin neg expo frac =>
    let M := mant expo frac
    if M = 0 then "0"
    else
      let N := M * 2 ^ (exp2 expo).toNat
      let D := 2 ^ (-(exp2 expo)).toNat
      let n := decExp N D
      let sk := shortest (fin false expo frac) N D n 17 1
      let ds := if sk.1 = 10 ^ sk.2 then (['1'], n + 1) else (decDigits sk.1, n)
      ⟨(if neg then ['-'] else []) ++ layout ds.1 ds.2⟩

/-! ### `StringToNumber` -/

/-- The value of a digit character in radix 16, if it is one. -/
def hexVal (c : Char) : Option Nat :=
  let n := c.toNat
  if 48 ≤ n ∧ n ≤ 57 then some (n - 48)
  else if 97 ≤ n ∧ n ≤ 102 then some (n - 87)
  else if 65 ≤ n ∧ n ≤ 70 then some (n - 55)
  else none

/-- A decimal digit character. -/
def isDigit (c : Char) : Bool := 48 ≤ c.toNat && c.toNat ≤ 57

/-- The value of a digit string in radix `base`, or `none` when a character is not a
digit of that radix. -/
def radixValue (base : Nat) : List Char → Nat → Option Nat
  | [], acc => some acc
  | c :: cs, acc =>
    match hexVal c with
    | some d => if d < base then radixValue base cs (acc * base + d) else none
    | none => none

/-- The value of a string of decimal digits. -/
def digitsValue (ds : List Char) : Nat := ds.foldl (fun acc c => acc * 10 + (c.toNat - 48)) 0

/-- The literal `0x…`, `0o…` or `0b…` (no sign): `some` of its value, `some nan` when the
digits are missing or foreign to the radix, `none` when the string has no such head. -/
def nonDecimalLiteral (cs : List Char) : Option JSNumber :=
  match cs with
  | '0' :: c :: ds =>
    let base : Nat :=
      if c = 'x' ∨ c = 'X' then 16 else if c = 'o' ∨ c = 'O' then 8
      else if c = 'b' ∨ c = 'B' then 2 else 0
    if base = 0 then none
    else if ds = [] then some nan
    else
      match radixValue base ds 0 with
      | some v => some (ofFraction false v 1)
      | none => some nan
  | _ => none

/-- The part `e±ddd` after the digits: `some 0` when nothing follows, the exponent when
a well-formed exponent part follows, `none` otherwise. -/
def exponentPart (cs : List Char) : Option Int :=
  match cs with
  | [] => some 0
  | c :: r =>
    if c = 'e' ∨ c = 'E' then
      let signed : Bool × List Char :=
        match r with
        | '-' :: ds => (true, ds)
        | '+' :: ds => (false, ds)
        | ds => (false, ds)
      if signed.2 = [] ∨ ¬ signed.2.all isDigit then none
      else some (if signed.1 then - (digitsValue signed.2 : Int) else (digitsValue signed.2 : Int))
    else none

/-- The Number of the decimal `± ds * 10 ^ x`, `ds` a digit string.  A magnitude beyond
every finite Number, or below every nonzero one, is answered without the power. -/
def decimalValue (neg : Bool) (ds : List Char) (x : Int) : JSNumber :=
  let m := digitsValue ds
  if m = 0 then zero neg
  else
    let mag : Int := x + ((ds.dropWhile (fun c => c == '0')).length : Int)
    if mag > 400 then .inf neg
    else if mag < -400 then zero neg
    else ofFraction neg (m * 10 ^ x.toNat) (10 ^ (-x).toNat)

/-- The unsigned decimal literal: `Infinity`, or digits with an optional fraction and an
optional exponent part; anything else is `NaN`. -/
def unsignedDecimal (neg : Bool) (cs : List Char) : JSNumber :=
  if cs = "Infinity".data then .inf neg
  else
    let ip := cs.takeWhile isDigit
    let r1 := cs.dropWhile isDigit
    let fp : List Char := match r1 with
      | '.' :: r => r.takeWhile isDigit
      | _ => []
    let r2 : List Char := match r1 with
      | '.' :: r => r.dropWhile isDigit
      | _ => r1
    if ip = [] ∧ fp = [] then nan
    else
      match exponentPart r2 with
      | none => nan
      | some ex => decimalValue neg (ip ++ fp) (ex - (fp.length : Int))

/-- The abstract operation `StringToNumber`: white space around the literal is skipped,
the empty string is `+0`, a string that is no numeric literal is `NaN`. -/
def ofString (s : String) : JSNumber :=
  let cs := trimEnd (trimStart s.data)
  if cs = [] then zero false
  else
    match nonDecimalLiteral cs with
    | some r => r
    | none =>
      match cs with
      | '-' :: r => unsignedDecimal true r
      | '+' :: r => unsignedDecimal false r
      | _ => unsignedDecimal false cs

/-- The Number is neither `NaN` nor an infinity. -/
def isFinite : JSNumber → Bool
  | fin _ _ _ => true
  | _ => false

/-- The Number is `+0` or `-0`. -/
def isZero : JSNumber → Bool
  | fin _ expo frac => mant expo frac == 0
  | _ => false

end JSNumber

/-! ## Values -/

/-- JavaScript values: what a configuration entry or the body of a JSON response can be.
The own properties of an object are listed in enumeration order, under any names; where
a list repeats a name, the first entry is the property. -/
inductive JSValue where
  | undefined
  | null
  | bool (b : Bool)
  | num (n : JSNumber)
  | str (s : String)
  | arr (items : List JSValue)
  | obj (props : List (String × JSValue))

namespace JSValue

/-- The value is `undefined` or `null`. -/
def isNullish : JSValue → Bool
  | undefined => true
  | null => true
  | _ => false

/-- The value is `undefined`. -/
def isUndefined : JSValue → Bool
  | undefined => true
  | _ => false

/-- The value is neither an array nor an object. -/
def isPrimitive : JSValue → Bool
  | arr _ => false
  | obj _ => false
  | _ => true

/-- The abstract operation `ToBoolean`. -/
def ToBoolean : JSValue → Bool
  | undefined => false
  | null => false
  | bool b => b
  | num n => !(n.isZero || n == JSNumber.nan)
  | str s => s != ""
  | arr _ => true
  | obj _ => true

/-- The own property `name` of a property list, `undefined` when there is none. -/
def lookup (props : List (String × JSValue)) (name : String) : JSValue :=
  match props.find? (fun p => p.1 == name) with
  | some p => p.2
  | none => undefined

/-- Whether a property list has the own property `name`. -/
def hasOwn (props : List (String × JSValue)) (name : String) : Bool :=
  props.any (fun p => p.1 == name)

mutual
/-- The abstract operation `ToString`; `none` is a `TypeError`.  An array goes through
`Array.prototype.toString`, which joins its elements with a comma.  An object goes
through `OrdinaryToPrimitive`: without an own property `toString` the inherited
`Object.prototype.toString` answers `[object Object]`; an own property `toString` holds
a value that cannot be called, `valueOf` (own: not callable, inherited: returns the
object) gives no primitive either, and the conversion throws. -/
def ToString : JSValue → Option String
  | undefined => some "undefined"
  | null => some "null"
  | bool b => some (if b then "true" else "false")
  | num n => some n.toString
  | str s => some s
  | arr items => joinComma items
  | obj props => if hasOwn props "toString" then none else some "[object Object]"
termination_by structural v => v
/-- The call `Array.prototype.join(",")` on the elements of an array: `undefined` and
`null` elements give the empty string, the conversion of another element may throw. -/
def joinComma : List JSValue → Option String
  | [] => some ""
  | x :: rest =>
    match (if x.isNullish then some "" else ToString x), joinComma rest with
    | some first, some others => some (first ++ (if rest.isEmpty then "" else ",") ++ others)
    | _, _ => none
termination_by structural xs => xs
end

/-- The strings of the elements of an array as `Array.prototype.join` converts them;
`none` when a conversion throws. -/
def elementStrings : List JSValue → Option (List String)
  | [] => some []
  | x :: rest =>
    match (if x.isNullish then some "" else ToString x), elementStrings rest with
    | some first, some others => some (first :: others)
    | _, _ => none

/-- The method `Array.prototype.join(sep)`; `none` is a `TypeError`. -/
def join (items : List JSValue) (sep : String) : Option String :=
  (elementStrings items).map (String.intercalate sep)

/-- The abstract operation `ToNumber`; `none` is a `TypeError`.  Arrays and objects are
first turned into their primitive, which in this universe is their string (with the hint
`number` an object is asked for `valueOf` first, which gives no primitive). -/
def ToNumber : JSValue → Option JSNumber
  | undefined => some JSNumber.nan
  | null => some (JSNumber.zero false)
  | bool b => some (if b then JSNumber.ofNat 1 else JSNumber.zero false)
  | num n => some n
  | str s => some (JSNumber.ofString s)
  | v => (ToString v).map JSNumber.ofString

/-- The operator `a || b`. -/
def or (a b : JSValue) : JSValue := if a.ToBoolean then a else b

/-- The operator `a ?? b`. -/
def nullish (a b : JSValue) : JSValue := if a.isNullish then b else a

/-- The read `v.name`, for the names `recognize` reads (`candidates`, `content`,
`parts`, `text` and the names of the configuration: none of them is an array index,
`length`, or a member of a built-in prototype).  Reading a property of `undefined` or
`null` throws a `TypeError`, here `none`. -/
def get (v : JSValue) (name : String) : Option JSValue :=
  match v with
  | undefined => none
  | null => none
  | obj props => some (lookup props name)
  | _ => some undefined

/-- The optional read `v?.name`. -/
def getOpt (v : JSValue) (name : String) : JSValue :=
  match v with
  | obj props => lookup props name
  | _ => undefined

/-- The optional read `v?.[0]`: the first element of an array, the first character of a
string, the property `0` of an object. -/
def getOpt0 (v : JSValue) : JSValue :=
  match v with
  | arr items => items.headD undefined
  | str s => match s.data with
    | [] => undefined
    | c :: _ => str ⟨[c]⟩
  | obj props => lookup props "0"
  | _ => undefined

/-! ### `JSON.stringify` -/

/-- The escape of one character in `QuoteJSONString`. -/
def quoteChar (c : Char) : String :=
  let n := c.toNat
  if n = 8 then "\\b" else if n = 9 then "\\t" else if n = 10 then "\\n"
  else if n = 12 then "\\f" else if n = 13 then "\\r"
  else if n = 34 then "\\\"" else if n = 92 then "\\\\"
  else if n < 32 then ⟨'\\' :: 'u' :: '0' :: '0' :: digitChar (n / 16) :: [digitChar (n % 16)]⟩
  else ⟨[c]⟩

/-- The abstract operation `QuoteJSONString`. -/
def quoteJSONString (s : String) : String :=
  "\"" ++ String.join (s.data.map quoteChar) ++ "\""

mutual
/-- The abstract operation `SerializeJSONProperty` without indentation; `none` stands for
the result `undefined`.  An own property `toJSON` cannot be called and is not used. -/
def serialize : JSValue → Option String
  | undefined => none
  | null => some "null"
  | bool b => some (if b then "true" else "false")
  | num n => some (if n.isFinite then n.toString else "null")
  | str s => some (quoteJSONString s)
  | arr items => some ("[" ++ String.intercalate "," (serializeItems items) ++ "]")
  | obj props => some ("\x7b" ++ String.intercalate "," (serializeProps props) ++ "\x7d")
termination_by structural v => v
/-- The elements of `SerializeJSONArray`: an element without a serialization is `null`. -/
def serializeItems : List JSValue → List String
  | [] => []
  | x :: rest => (serialize x).getD "null" :: serializeItems rest
termination_by structural xs => xs
/-- The members of `SerializeJSONObject`: a property without a serialization is left
out. -/
def serializeProps : List (String × JSValue) → List String
  | [] => []
  | p :: rest => serializeProp p ++ serializeProps rest
termination_by structural ps => ps
/-- One member `"name":value` of `SerializeJSONObject`. -/
def serializeProp : String × JSValue → List String
  | (k, v) =>
    match serialize v with
    | some t => [quoteJSONString k ++ ":" ++ t]
    | none => []
termination_by structural p => p
end

/-- The call `JSON.stringify(v)`: a string, or `undefined` when `v` is `undefined`. -/
def stringify (v : JSValue) : JSValue :=
  match serialize v with
  | some t => str t
  | none => undefined

end JSValue

open JSValue

/-! ## The host interface -/

/-- What `fetch` resolves to: `{ ok, status, data }`, with `ok` a boolean and `status` a
number as the http utility of the host produces them, and `data` any value. -/
structure Response where
  ok : Bool
  status : JSNumber
  data : JSValue

/-- The helper `Body` of the host: `Body.json(payload)` wraps a payload as a request
body. -/
structure Body where
  json : JSValue → JSValue

/-- The capability `options.utils.http`.  A call `fetch(url, request)` either resolves to
a response or rejects with a reason. -/
structure Http where
  fetch : JSValue → JSValue → Except JSValue Response
  Body : Body

/-- The field `options.utils`. -/
structure Utils where
  http : Http

/-- The third argument of `recognize`: `config` is the value of `options.config`,
`undefined` when the property is absent. -/
structure Options where
  config : JSValue
  utils : Utils

/-- The six constants `recognize` takes from the configuration by destructuring. -/
structure Config where
  endpoint : JSValue
  model : JSValue
  apiKey : JSValue
  googleSearch : JSValue
  Thinking : JSValue
  temperature : JSValue

/-- How a call of `recognize` completes: the promise resolves to a string, rejects with a
thrown value, or rejects with a `TypeError` raised by the engine. -/
inductive Completion where
  | returned (value : String)
  | thrown (value : JSValue)
  | typeError

/-- A completed call of `recognize`: the completion and the calls of `fetch` made on the
way, each with its two arguments. -/
structure Run where
  completion : Completion
  calls : List (JSValue × JSValue)

/-! ## The function `recognize` -/

/-- The destructuring `const { config = {}, ... } = options` followed by
`const { endpoint, model, apiKey, googleSearch, Thinking, temperature } = config`: an
absent `config` is replaced by `{}`, `null` cannot be destructured (`none`, a
`TypeError`), and a property the value does not have reads as `undefined`. -/
def destructure (config : JSValue) : Option Config :=
  match config with
  | null => none
  | undefined => some ⟨undefined, undefined, undefined, undefined, undefined, undefined⟩
  | v => some ⟨getOpt v "endpoint", getOpt v "model", getOpt v "apiKey",
      getOpt v "googleSearch", getOpt v "Thinking", getOpt v "temperature"⟩

/-- The message thrown when `apiKey` is falsy. -/
def missingKeyMessage : String := "缺少 Gemini API 密钥，请在插件配置中填写您的密钥"

/-- The message thrown when an ok response carries no candidate content. -/
def noContentMessage : String := "Gemini API 未返回有效内容"

/-- The text of the system protocol, the only part of `systemPrompt`. -/
def systemProtocol : String :=
  "## SYSTEM PROTOCOL: HEADLESS OCR & FORMATTING ENGINE ##\n" ++
  "\n" ++
  "# 1. FUNCTION\n" ++
  "Your sole function is to serve as a high-fidelity, image-to-text recognition and structuring engine (OCR). You operate as a headless service. You do not have a personality. You do not interact. You only process.\n" ++
  "\n" ++
  "# 2. EXECUTION FLOW\n" ++
  "1.  Receive a `[Source Image]` from the user input.\n" ++
  "2.  Visually analyze the `[Source Image]` to perform Optical Character Recognition (OCR) and structural analysis according to the `[Recognition Directives]` below.\n" ++
  "3.  Generate the final output strictly adhering to the `[Output Constraints]`.\n" ++
  "\n" ++
  "# 3. RECOGNITION DIRECTIVES\n" ++
  "* **High-Fidelity OCR**: All characters, words, and symbols visible in the `[Source Image]` must be extracted with perfect accuracy across all languages. Pay close attention to punctuation, spacing, and case sensitivity.\n" ++
  "* **Visual Structure to Markdown**: Any visual structural elements within the `[Source Image]` (e.g., tables, lists, code blocks from a screenshot, presentation slides, documents) MUST be interpreted and converted into their corresponding clean Markdown format.\n" ++
  "* **Mathematical Formula Handling**: Mathematical expressions and formulas spotted in the `[Source Image]` should be identified and correctly enclosed in LaTeX delimiters (`$...$` for inline, `$$...$$` for block).\n" ++
  "* **Content Integrity**: The informational content visible in the `[Source Image]` must be fully preserved. No information may be added, omitted, or summarized. Recognize and transcribe everything as seen.\n" ++
  "* **Readability & Layout Optimization**: The final Markdown output must be well-formatted and organized for optimal human readability. This includes proper line breaks, spacing, and consistent list/table structure.\n" ++
  "\n" ++
  "# 4. OUTPUT CONSTRAINTS\n" ++
  "* **ABSOLUTE RULE**: The output MUST be the recognized and formatted text, and NOTHING else.\n" ++
  "* **MUST NOT**: Under NO circumstances should the output contain any of the following:\n" ++
  "    * Prefaces or introductions (e.g., \"Here is the recognized text:\", \"好的，识别内容如下：\").\n" ++
  "    * Postscripts or summaries (e.g., \"The image contains...\", \"希望您满意。\").\n" ++
  "    * Any form of conversational filler, greetings, or apologies.\n" ++
  "    * Explanations about the recognition process or formatting choices.\n" ++
  "    * Any text that is not the direct, formatted representation of the content in the `[Source Image]`.\n" ++
  "* The response body must begin with the first character of the recognized text and end with its last character.\n" ++
  "\n" ++
  "---\n" ++
  "### TEST CASES\n" ++
  "\n" ++
  "**User Input:**\n" ++
  "[An image of a textbook page showing the text: The famous equation is E = mc^2. It relates energy to mass.]\n" ++
  "\n" ++
  "**Your Output:**\n" ++
  "The famous equation is $E = mc^2$. It relates energy to mass.\n" ++
  "\n" ++
  "**User Input:**\n" ++
  "[A screenshot of a simple spreadsheet with two columns, 'Name' and 'Role', and one data row: 'Alice', 'Engineer'.]\n" ++
  "\n" ++
  "**Your Output:**\n" ++
  "| Name  | Role     |\n" ++
  "|-------|----------|\n" ++
  "| Alice | Engineer |\n" ++
  "\n" ++
  "**User Input:**\n" ++
  "[A clean screenshot of a code editor showing a python function.]\n" ++
  "```python\n" ++
  "def calculate_sum(a, b):\n" ++
  "    # Returns the sum of two numbers\n" ++
  "    return a + b\n" ++
  "```\n" ++
  "\n" ++
  "**Your Output:**\n" ++
  "\n" ++
  "```python\n" ++
  "def calculate_sum(a, b):\n" ++
  "    # Returns the sum of two numbers\n" ++
  "    return a + b\n" ++
  "```\n" ++
  "\n" ++
  "-----\n" ++
  "\n" ++
  "Engine activated. Awaiting input."

/-- The instruction that follows the image in the second turn. -/
def instruction : String :=
  "Just recognize the text in the image, do not provide any explanation."

/-- The constant `systemPrompt`. -/
def systemPrompt : JSValue := arr [obj [("text", str systemProtocol)]]

/-- The constant `apiUrl`, a template literal: the two substitutions are converted to
strings, which may throw (`none`). -/
def apiUrl (endpoint model : JSValue) : Option String :=
  match ToString (endpoint.or (str "https://generativelanguage.googleapis.com")),
      ToString (model.or (str "gemini-flash-lite")) with
  | some e, some m => some (e ++ "/v1beta/models/" ++ m ++ ":generateContent")
  | _, _ => none

/-- The constant `headers`. -/
def headers (apiKey : JSValue) : JSValue :=
  obj [("Content-Type", str "application/json"), ("X-goog-api-key", apiKey)]

/-- The constant `contents`. -/
def contents (base64 : JSValue) : JSValue :=
  arr [
    obj [("role", str "user"), ("parts", systemPrompt)],
    obj [("role", str "user"),
         ("parts", arr [
            obj [("inlineData", obj [("mimeType", str "image/png"), ("data", base64)])],
            obj [("text", str instruction)]])]]

/-- The constant `tools`: the one-element array holding the search tool or `null`,
filtered by `Boolean`; `none` when `String(googleSearch)` throws. -/
def tools (googleSearch : JSValue) : Option (List JSValue) :=
  match ToString googleSearch with
  | some s => some ([if s = "enable" then obj [("googleSearch", obj [])] else null].filter
      ToBoolean)
  | none => none

/-- The constant `generationConfig`; `none` when `Number(temperature ?? '1')` or
`String(Thinking)` throws. -/
def generationConfig (Thinking temperature : JSValue) : Option JSValue :=
  match ToNumber (temperature.nullish (str "1")), ToString Thinking with
  | some t, some s =>
    some (obj ([("temperature", num t)] ++
      (if s = "enable" then
        [("thinkingConfig", obj [("thinkingBudget", num (JSNumber.ofFraction true 1 1))])]
       else [])))
  | _, _ => none

/-- One entry of `safetySettings`. -/
def safetySetting (category : String) : JSValue :=
  obj [("category", str category), ("threshold", str "BLOCK_NONE")]

/-- The constant `safetySettings`. -/
def safetySettings : JSValue :=
  arr [safetySetting "HARM_CATEGORY_HARASSMENT", safetySetting "HARM_CATEGORY_HATE_SPEECH",
       safetySetting "HARM_CATEGORY_SEXUALLY_EXPLICIT",
       safetySetting "HARM_CATEGORY_DANGEROUS_CONTENT"]

/-- The constant `payload`, assembled from the constants `tools` and `generationConfig`;
the spread of `{ tools }` or of `{}` adds the property `tools` or nothing. -/
def payload (base64 : JSValue) (tools : List JSValue) (generationConfig : JSValue) : JSValue :=
  obj ([("contents", contents base64)] ++
    (if tools.length > 0 then [("tools", arr tools)] else []) ++
    [("generationConfig", generationConfig), ("safetySettings", safetySettings)])

/-- The second argument of the call of `fetch`; `body` is `Body.json(payload)`. -/
def request (apiUrl : String) (apiKey body : JSValue) : JSValue :=
  obj [("method", str "POST"), ("url", str apiUrl), ("headers", headers apiKey),
       ("body", body), ("timeout", num (JSNumber.ofNat 60000)),
       ("responseType", num (JSNumber.ofNat 1))]

/-- The test `!candidate || !candidate.content || !candidate.content.parts`; `none` is a
`TypeError` of a property read. -/
def lacksContent (candidate : JSValue) : Option Bool :=
  if !candidate.ToBoolean then some true
  else
    match candidate.get "content" with
    | none => none
    | some content =>
      if !content.ToBoolean then some true
      else
        match content.get "parts" with
        | none => none
        | some parts => some (!parts.ToBoolean)

/-- The callback `(part) => part.text` applied to the elements of an array in order;
`none` as soon as one read throws. -/
def textsOf : List JSValue → Option (List JSValue)
  | [] => some []
  | part :: rest =>
    match part.get "text" with
    | none => none
    | some text => (textsOf rest).map (fun texts => text :: texts)

/-- The call `parts.map((part) => part.text)`: a value that is not an array has no
method `map` that can be called, and reading `text` of `undefined` or `null` throws;
both are `none`. -/
def mapText (parts : JSValue) : Option (List JSValue) :=
  match parts with
  | arr items => textsOf items
  | _ => none

/-- The statements after `await fetch(...)`. -/
def interpret (response : Response) : Completion :=
  if response.ok then
    let candidate := getOpt0 (getOpt response.data "candidates")
    match lacksContent candidate with
    | none => .typeError
    | some true => .thrown (str noContentMessage)
    | some false =>
      match (candidate.get "content").bind (fun content => content.get "parts") with
      | none => .typeError
      | some parts =>
        match mapText parts with
        | none => .typeError
        | some texts =>
          match join (texts.filter ToBoolean) "" with
          | none => .typeError
          | some joined => .returned (trim joined)
  else
    match ToString (stringify response.data) with
    | some body =>
      .thrown (str ("Http Request Error\nHttp Status: " ++ response.status.toString ++ "\n" ++
        body))
    | none => .typeError

set_option linter.unusedVariables false in
/-- The function `recognize(base64, lang, options)` of `src/main.js`, statement by
statement: the destructuring, the URL, the key test, the constants of the request, the
call of `fetch`, the interpretation of the response. -/
def recognize (base64 lang : JSValue) (options : Options) : Run :=
  match destructure options.config with
  | none => ⟨.typeError, []⟩
  | some config =>
    match apiUrl config.endpoint config.model with
    | none => ⟨.typeError, []⟩
    | some url =>
      if !config.apiKey.ToBoolean then
        ⟨.thrown (str missingKeyMessage), []⟩
      else
        match tools config.googleSearch,
            generationConfig config.Thinking config.temperature with
        | some ts, some gc =>
          match options.utils.http.fetch (str url)
              (request url config.apiKey (options.utils.http.Body.json
                (payload base64 ts gc))) with
          | .error reason => ⟨.thrown reason,
              [(str url, request url config.apiKey (options.utils.http.Body.json
                (payload base64 ts gc)))]⟩
          | .ok response => ⟨interpret response,
              [(str url, request url config.apiKey (options.utils.http.Body.json
                (payload base64 ts gc)))]⟩
        | _, _ => ⟨.typeError, []⟩

/-! ## Sample inputs and auxiliary notions -/

/-- A host whose `fetch` resolves to `response` and whose `Body.json` is the identity. -/
def hostResolving (response : Response) : Utils :=
  ⟨⟨fun _ _ => .ok response, ⟨fun v => v⟩⟩⟩

/-- A host whose `fetch` rejects with `reason`. -/
def hostRejecting (reason : JSValue) : Utils :=
  ⟨⟨fun _ _ => .error reason, ⟨fun v => v⟩⟩⟩

/-- The properties of an object, none for any other value. -/
def propsOf : JSValue → List (String × JSValue)
  | obj props => props
  | _ => []

/-- An object that cannot be converted to a string or a number: its own property
`toString` is not a function. -/
def unconvertible : JSValue := obj [("toString", num (JSNumber.ofNat 1))]

/-- The payload `recognize` assembles from a configuration, `none` when a conversion of
`googleSearch`, `temperature` or `Thinking` throws. -/
def payloadOf (base64 : JSValue) (config : Config) : Option JSValue :=
  match tools config.googleSearch, generationConfig config.Thinking config.temperature with
  | some ts, some gc => some (payload base64 ts gc)
  | _, _ => none

/-- The first turn of `contents`: the system protocol. -/
def protocolTurn : JSValue :=
  obj [("role", str "user"), ("parts", arr [obj [("text", str systemProtocol)]])]

/-- The second turn of `contents`: the image as inline PNG data, then the instruction. -/
def imageTurn (base64 : JSValue) : JSValue :=
  obj [("role", str "user"),
       ("parts", arr [
          obj [("inlineData", obj [("mimeType", str "image/png"), ("data", base64)])],
          obj [("text",
                str "Just recognize the text in the image, do not provide any explanation.")]])]

/-- The default base URL of `apiUrl`. -/
def defaultEndpoint : String := "https://generativelanguage.googleapis.com"

/-- The default model name of `apiUrl`. -/
def defaultModel : String := "gemini-flash-lite"

/-- The choice by presence: the string of the configured value when it is not
`undefined`, the default otherwise. -/
def chosenIfPresent (v : JSValue) (fallback : String) : Option String :=
  if v.isUndefined then some fallback else JSValue.ToString v

/-- The choice by truthiness: the string of the configured value when it is truthy (for
a string: not empty), the default otherwise. -/
def chosen (v : JSValue) (fallback : String) : Option String :=
  if v.ToBoolean then JSValue.ToString v else some fallback

/-- The search tool entry `{ googleSearch: {} }`. -/
def searchTool : JSValue := obj [("googleSearch", obj [])]

/-- The directive `{ thinkingBudget: -1 }`. -/
def unlimitedThinking : JSValue :=
  obj [("thinkingBudget", num (JSNumber.ofFraction true 1 1))]

/-- The generation parameters inside a payload. -/
def generationOf (payload : JSValue) : List (String × JSValue) :=
  propsOf (lookup (propsOf payload) "generationConfig")

/-- A configuration object that only sets `apiKey`. -/
def keyOnly (apiKey : JSValue) : JSValue := obj [("apiKey", apiKey)]

/-- A configuration object that sets `apiKey` and one more property. -/
def keyAnd (apiKey : JSValue) (name : String) (value : JSValue) : JSValue :=
  obj [("apiKey", apiKey), (name, value)]

/-- The text `inner` occurs inside the text `outer`. -/
def Contains (outer inner : String) : Prop := inner.data <:+: outer.data

/-- A configuration with a key, a host resolving to the given response. -/
def optionsResolving (response : Response) : Options :=
  ⟨keyOnly (str "k"), hostResolving response⟩

/-- The response `{ ok: false, status: 429, data: { error: "quota" } }`. -/
def quotaResponse : Response :=
  ⟨false, JSNumber.ofNat 429, obj [("error", str "quota")]⟩

/-- The first candidate of the response data: `data?.candidates?.[0]`. -/
def firstCandidate (data : JSValue) : JSValue := getOpt0 (getOpt data "candidates")

/-- The content of the first candidate, `undefined` when there is none. -/
def contentOf (data : JSValue) : JSValue := getOpt (firstCandidate data) "content"

/-- The parts of the content of the first candidate, `undefined` when there are none. -/
def partsOf (data : JSValue) : JSValue := getOpt (contentOf data) "parts"

/-- What one part contributes to the result: the string of its text, or nothing when the
part has no (truthy) text; `none` when the text cannot be converted. -/
def partText (part : JSValue) : Option String :=
  if (getOpt part "text").ToBoolean then JSValue.ToString (getOpt part "text") else some ""

/-- The contributions of all parts, in order; `none` when one text cannot be
converted. -/
def partTexts : List JSValue → Option (List String)
  | [] => some []
  | part :: rest =>
    match partText part, partTexts rest with
    | some text, some texts => some (text :: texts)
    | _, _ => none

/-- Response data with the given candidates. -/
def dataWithCandidates (candidates : List JSValue) : JSValue :=
  obj [("candidates", arr candidates)]

/-- A candidate whose content has the given parts. -/
def candidateWithParts (parts : JSValue) : JSValue :=
  obj [("content", obj [("parts", parts)])]

/-- A part with the given text. -/
def textPart (text : String) : JSValue := obj [("text", str text)]

/-- An ok response with status 200 and the given data. -/
def okResponse (data : JSValue) : Response := ⟨true, JSNumber.ofNat 200, data⟩

/-- The run of `recognize` on an ok response with one candidate whose content has the
given parts. -/
def runOnParts (parts : JSValue) : Run :=
  recognize (str "AAAA") (str "en")
    (optionsResolving (okResponse (dataWithCandidates [candidateWithParts parts])))

/-! ## Properties -/

/-- With constants that convert and a truthy `apiKey`, the function makes its single call
of `fetch` and completes with what follows the call. -/
theorem recognize_of_key (base64 lang : JSValue) (options : Options) (config : Config)
    (url : String) (ts : List JSValue) (gc : JSValue)
    (hcfg : destructure options.config = some config)
    (hurl : apiUrl config.endpoint config.model = some url)
    (hkey : config.apiKey.ToBoolean = true)
    (htools : tools config.googleSearch = some ts)
    (hgc : generationConfig config.Thinking config.temperature = some gc) :
    recognize base64 lang options =
      match options.utils.http.fetch (str url) (request url config.apiKey
          (options.utils.http.Body.json (payload base64 ts gc))) with
      | .error reason => ⟨.thrown reason, [(str url, request url config.apiKey
          (options.utils.http.Body.json (payload base64 ts gc)))]⟩
      | .ok response => ⟨interpret response, [(str url, request url config.apiKey
          (options.utils.http.Body.json (payload base64 ts gc)))]⟩ := by
  simp only [recognize, hcfg, hurl, hkey, htools, hgc, Bool.not_true, Bool.false_eq_true,
    if_false]

/-- A call of `fetch` in the trace: the constants converted, the key was truthy, and the
completion is what follows the call. -/
theorem recognize_call (base64 lang : JSValue) (options : Options) (url req : JSValue)
    (h : (recognize base64 lang options).calls = [(url, req)]) :
    ∃ config u ts gc, destructure options.config = some config ∧
      apiUrl config.endpoint config.model = some u ∧
      config.apiKey.ToBoolean = true ∧
      tools config.googleSearch = some ts ∧
      generationConfig config.Thinking config.temperature = some gc ∧
      url = str u ∧
      req = request u config.apiKey (options.utils.http.Body.json (payload base64 ts gc)) ∧
      (recognize base64 lang options).completion =
        match options.utils.http.fetch url req with
        | .error reason => .thrown reason
        | .ok response => interpret response := by
  cases hcfg : destructure options.config with
  | none => simp [recognize, hcfg] at h
  | some config =>
    cases hurl : apiUrl config.endpoint config.model with
    | none => simp [recognize, hcfg, hurl] at h
    | some u =>
      by_cases hkey : config.apiKey.ToBoolean = true
      · cases htools : tools config.googleSearch with
        | none => simp [recognize, hcfg, hurl, hkey, htools] at h
        | some ts =>
          cases hgc : generationConfig config.Thinking config.temperature with
          | none => simp [recognize, hcfg, hurl, hkey, htools, hgc] at h
          | some gc =>
            have hr := recognize_of_key base64 lang options config u ts gc hcfg hurl hkey
              htools hgc
            rw [hr] at h ⊢
            refine ⟨config, u, ts, gc, rfl, hurl, hkey, htools, hgc, ?_⟩
            cases hf : options.utils.http.fetch (str u) (request u config.apiKey
                (options.utils.http.Body.json (payload base64 ts gc))) with
            | error reason =>
              rw [hf] at h
              simp only [List.cons.injEq, Prod.mk.injEq, and_true] at h
              obtain ⟨h1, h2⟩ := h
              subst h1 h2
              simp [hf]
            | ok response =>
              rw [hf] at h
              simp only [List.cons.injEq, Prod.mk.injEq, and_true] at h
              obtain ⟨h1, h2⟩ := h
              subst h1 h2
              simp [hf]
      · simp [recognize, hcfg, hurl, hkey] at h

/-- After a resolved call the completion of `recognize` is the interpretation of the
response. -/
theorem recognize_resolved (base64 lang : JSValue) (options : Options) (url req : JSValue)
    (response : Response)
    (hcall : (recognize base64 lang options).calls = [(url, req)])
    (hfetch : options.utils.http.fetch url req = .ok response) :
    (recognize base64 lang options).completion = interpret response := by
  obtain ⟨_, _, _, _, _, _, _, _, _, _, _, hc⟩ := recognize_call base64 lang options url req hcall
  rw [hc, hfetch]

/-- A value that is neither an array nor an object converts to a string. -/
theorem toString_primitive (v : JSValue) (h : v.isPrimitive = true) :
    JSValue.ToString v ≠ none := by
  cases v <;> simp_all [JSValue.ToString, isPrimitive]

/-- A value that is neither an array nor an object converts to a number. -/
theorem toNumber_primitive (v : JSValue) (h : v.isPrimitive = true) :
    ToNumber v ≠ none := by
  cases v <;> simp_all [ToNumber, isPrimitive]

/-- The URL of `recognize` is built from the two choices by truthiness. -/
theorem apiUrl_eq (endpoint model : JSValue) :
    apiUrl endpoint model =
      match chosen endpoint defaultEndpoint, chosen model defaultModel with
      | some e, some m => some (e ++ "/v1beta/models/" ++ m ++ ":generateContent")
      | _, _ => none := by
  unfold apiUrl chosen JSValue.or defaultEndpoint defaultModel
  by_cases he : endpoint.ToBoolean = true <;> by_cases hm : model.ToBoolean = true <;>
    simp [he, hm, JSValue.ToString]

/-- The URL exists for an endpoint and a model that are not arrays or objects. -/
theorem apiUrl_primitive (endpoint model : JSValue) (he : endpoint.isPrimitive = true)
    (hm : model.isPrimitive = true) : apiUrl endpoint model ≠ none := by
  unfold apiUrl JSValue.or
  have h1 : JSValue.ToString (if endpoint.ToBoolean = true then endpoint
      else str "https://generativelanguage.googleapis.com") ≠ none := by
    split_ifs
    · exact toString_primitive _ he
    · simp [JSValue.ToString]
  have h2 : JSValue.ToString (if model.ToBoolean = true then model
      else str "gemini-flash-lite") ≠ none := by
    split_ifs
    · exact toString_primitive _ hm
    · simp [JSValue.ToString]
  obtain ⟨e, he⟩ := Option.ne_none_iff_exists'.mp h1
  obtain ⟨m, hm⟩ := Option.ne_none_iff_exists'.mp h2
  simp [he, hm]

/-- C1, as amended: for a configuration other than `null` (an absent one included)
whose `apiKey` is missing or the empty string, `fetch` is never called; `recognize`
throws the localized missing-key message when the string conversions of `endpoint` and
`model`, made before the key test, do not throw (they never do for values that are not
arrays or objects), and fails with a `TypeError` when one does.  The configuration
`null` fails with a `TypeError`, also without a call. -/
theorem missing_key_fails_without_fetch (base64 lang : JSValue) (options : Options)
    (config : Config)
    (hcfg : destructure options.config = some config)
    (hkey : config.apiKey = undefined ∨ config.apiKey = str "") :
    (recognize base64 lang options).calls = [] ∧
    (apiUrl config.endpoint config.model ≠ none →
      (recognize base64 lang options).completion = .thrown (str missingKeyMessage)) ∧
    (apiUrl config.endpoint config.model = none →
      (recognize base64 lang options).completion = .typeError) ∧
    (config.endpoint.isPrimitive = true → config.model.isPrimitive = true →
      (recognize base64 lang options).completion = .thrown (str missingKeyMessage)) ∧
    (destructure undefined).map (fun c => c.apiKey) = some undefined ∧
    (recognize base64 lang ⟨null, options.utils⟩).completion = .typeError ∧
    (recognize base64 lang ⟨null, options.utils⟩).calls = [] := by
  have hfalsy : config.apiKey.ToBoolean = false := by
    rcases hkey with hk | hk <;> simp [hk, ToBoolean]
  have hmsg : apiUrl config.endpoint config.model ≠ none →
      (recognize base64 lang options).completion = .thrown (str missingKeyMessage) := by
    intro h
    obtain ⟨u, hu⟩ := Option.ne_none_iff_exists'.mp h
    simp [recognize, hcfg, hu, hfalsy]
  refine ⟨?_, hmsg, ?_, ?_, rfl, rfl, rfl⟩
  · cases hu : apiUrl config.endpoint config.model <;> simp [recognize, hcfg, hu, hfalsy]
  · intro hu
    simp [recognize, hcfg, hu]
  · intro he hm
    exact hmsg (apiUrl_primitive _ _ he hm)

/-- The missing-key failure at a configuration whose `apiKey` is the empty string. -/
theorem missing_key_fails_without_fetch_witness :
    (recognize (str "AAAA") (str "en")
        ⟨keyOnly (str ""), hostResolving (okResponse null)⟩).calls = [] ∧
    (recognize (str "AAAA") (str "en")
        ⟨keyOnly (str ""), hostResolving (okResponse null)⟩).completion =
      .thrown (str missingKeyMessage) :=
  ⟨(missing_key_fails_without_fetch (str "AAAA") (str "en")
      ⟨keyOnly (str ""), hostResolving (okResponse null)⟩
      ⟨undefined, undefined, str "", undefined, undefined, undefined⟩ rfl (Or.inr rfl)).1,
   (missing_key_fails_without_fetch (str "AAAA") (str "en")
      ⟨keyOnly (str ""), hostResolving (okResponse null)⟩
      ⟨undefined, undefined, str "", undefined, undefined, undefined⟩ rfl
      (Or.inr rfl)).2.2.2.1 rfl rfl⟩

/-- C1, counterexample: a configuration without `apiKey` whose `endpoint` is an object
with an own property `toString` fails with a `TypeError` raised by the URL template,
not with the missing-key message; so does the configuration `null`, at the
destructuring. -/
theorem missing_key_type_error_counterexample :
    (destructure (obj [("endpoint", unconvertible)])).map (fun c => c.apiKey) =
      some undefined ∧
    (recognize (str "AAAA") (str "en")
        ⟨obj [("endpoint", unconvertible)], hostResolving (okResponse null)⟩).completion =
      .typeError ∧
    (recognize (str "AAAA") (str "en")
        ⟨null, hostResolving (okResponse null)⟩).completion = .typeError :=
  ⟨rfl, rfl, rfl⟩

/-- A text contains the second of four pieces it is appended from. -/
theorem contains_second (a b c d : String) : Contains (a ++ b ++ c ++ d) b := by
  unfold Contains
  simp only [String.data_append]
  exact ⟨a.data, c.data ++ d.data, by simp [List.append_assoc]⟩

/-- A text contains its last piece. -/
theorem contains_last (a b : String) : Contains (a ++ b) b := by
  unfold Contains
  simp only [String.data_append]
  exact ⟨a.data, [], by simp⟩

/-- The string that the template literal makes of `JSON.stringify(data)`: the
serialization, or `undefined` when there is none.  It never throws. -/
theorem toString_stringify (data : JSValue) :
    JSValue.ToString (stringify data) = some ((serialize data).getD "undefined") := by
  unfold stringify
  cases serialize data <;> simp [JSValue.ToString]

/-- The failure branch of `interpret`: a response that is not ok throws the HTTP error
message. -/
theorem interpret_not_ok (response : Response) (hok : response.ok = false) :
    interpret response =
      .thrown (str ("Http Request Error\nHttp Status: " ++ response.status.toString ++ "\n" ++
        (serialize response.data).getD "undefined")) := by
  simp [interpret, hok, toString_stringify]

set_option maxRecDepth 100000 in
/-- C2: when the call of `fetch` resolves to a response with `ok = false`, whatever its
data, `recognize` throws a message and returns no string; the message contains the
decimal text of the status and the JSON serialization of `response.data` (the text
`undefined` when the data has none).  The status `429` prints as `429` and the data
`{ error: "quota" }` serializes to `{"error":"quota"}`. -/
theorem http_error_message (base64 lang : JSValue) (options : Options) (url req : JSValue)
    (response : Response)
    (hcall : (recognize base64 lang options).calls = [(url, req)])
    (hfetch : options.utils.http.fetch url req = .ok response)
    (hok : response.ok = false) :
    (∃ msg : String, (recognize base64 lang options).completion = .thrown (str msg) ∧
      Contains msg response.status.toString ∧
      (∀ body, JSValue.ToString (stringify response.data) = some body → Contains msg body) ∧
      (∀ t, serialize response.data = some t → Contains msg t)) ∧
    (∀ s, (recognize base64 lang options).completion ≠ .returned s) ∧
    (JSNumber.ofNat 429).toString = "429" ∧
    serialize (obj [("error", str "quota")]) = some "\x7b\"error\":\"quota\"\x7d" := by
  have hc := recognize_resolved base64 lang options url req response hcall hfetch
  rw [interpret_not_ok response hok] at hc
  refine ⟨⟨_, hc, ?_, ?_, ?_⟩, ?_, by decide, by decide⟩
  · exact contains_second _ _ _ _
  · intro body hbody
    rw [toString_stringify] at hbody
    cases hbody
    exact contains_last _ _
  · intro t ht
    rw [ht]
    exact contains_last _ _
  · intro s hs
    rw [hc] at hs
    cases hs

set_option maxRecDepth 100000 in
/-- The HTTP error at the response `{ ok: false, status: 429, data: { error: "quota" } }`. -/
theorem http_error_message_witness :
    (∃ url req, (recognize (str "AAAA") (str "en")
        (optionsResolving quotaResponse)).calls = [(url, req)]) ∧
    quotaResponse.ok = false ∧
    ∃ msg : String, (recognize (str "AAAA") (str "en")
        (optionsResolving quotaResponse)).completion = .thrown (str msg) ∧
      Contains msg "429" ∧ Contains msg "\x7b\"error\":\"quota\"\x7d" := by
  obtain ⟨⟨msg, h1, h2, _, h4⟩, _, h5, h6⟩ := http_error_message (str "AAAA") (str "en")
    (optionsResolving quotaResponse) _ _ quotaResponse rfl rfl rfl
  refine ⟨⟨_, _, rfl⟩, rfl, msg, h1, ?_, h4 _ h6⟩
  have hs : quotaResponse.status.toString = "429" := h5
  rw [hs] at h2
  exact h2

/-- C10: the `contents` of the payload are two user turns, the system protocol and then
the image (inline data tagged `image/png`, the image value unchanged) followed by the
instruction; a run of `recognize` is the same for any two language hints, and the
contents are the same for any two configurations, whatever tools and generation
parameters they give. -/
theorem contents_fixed (base64 lang lang2 : JSValue) (options : Options)
    (ts ts2 : List JSValue) (gc gc2 : JSValue) (config config2 : Config) :
    lookup (propsOf (payload base64 ts gc)) "contents" =
      arr [protocolTurn, imageTurn base64] ∧
    recognize base64 lang options = recognize base64 lang2 options ∧
    lookup (propsOf (payload base64 ts gc)) "contents" =
      lookup (propsOf (payload base64 ts2 gc2)) "contents" ∧
    (payloadOf base64 config).map (fun p => lookup (propsOf p) "contents") =
      (payloadOf base64 config).map (fun _ => arr [protocolTurn, imageTurn base64]) ∧
    (payloadOf base64 config2).map (fun p => lookup (propsOf p) "contents") =
      (payloadOf base64 config2).map (fun _ => arr [protocolTurn, imageTurn base64]) := by
  have key : ∀ c : Config, (payloadOf base64 c).map (fun p => lookup (propsOf p) "contents") =
      (payloadOf base64 c).map (fun _ => arr [protocolTurn, imageTurn base64]) := by
    intro c
    unfold payloadOf
    cases tools c.googleSearch <;> cases generationConfig c.Thinking c.temperature <;> rfl
  exact ⟨rfl, rfl, rfl, key config, key config2⟩

/-- C5, as amended: with a truthy `apiKey`, every call of `fetch` is passed the URL
`E + "/v1beta/models/" + M + ":generateContent"`, where `E` is the string of
`config.endpoint` when it is truthy (a string that is not empty) and the default base
URL when it is absent or empty, and `M` is `config.model` or the default model name in
the same way; the call is made whenever the conversions of the configuration do not
throw. -/
theorem url_of_call (base64 lang : JSValue) (options : Options) (config : Config)
    (hcfg : destructure options.config = some config)
    (hkey : config.apiKey.ToBoolean = true) :
    (∀ call ∈ (recognize base64 lang options).calls, ∃ E M,
      chosen config.endpoint defaultEndpoint = some E ∧
      chosen config.model defaultModel = some M ∧
      call.1 = str (E ++ "/v1beta/models/" ++ M ++ ":generateContent")) ∧
    (∀ E M ts gc, chosen config.endpoint defaultEndpoint = some E →
      chosen config.model defaultModel = some M →
      tools config.googleSearch = some ts →
      generationConfig config.Thinking config.temperature = some gc →
      ∃ req, (recognize base64 lang options).calls =
        [(str (E ++ "/v1beta/models/" ++ M ++ ":generateContent"), req)]) ∧
    (∀ e : String, e ≠ "" → chosen (str e) defaultEndpoint = some e) ∧
    (∀ m : String, m ≠ "" → chosen (str m) defaultModel = some m) ∧
    chosen undefined defaultEndpoint = some "https://generativelanguage.googleapis.com" ∧
    chosen (str "") defaultEndpoint = some "https://generativelanguage.googleapis.com" ∧
    chosen undefined defaultModel = some "gemini-flash-lite" ∧
    chosen (str "") defaultModel = some "gemini-flash-lite" := by
  have hall : ∀ E M ts gc, chosen config.endpoint defaultEndpoint = some E →
      chosen config.model defaultModel = some M →
      tools config.googleSearch = some ts →
      generationConfig config.Thinking config.temperature = some gc →
      ∃ req, (recognize base64 lang options).calls =
        [(str (E ++ "/v1beta/models/" ++ M ++ ":generateContent"), req)] := by
    intro E M ts gc hE hM hts hgc
    have hurl : apiUrl config.endpoint config.model =
        some (E ++ "/v1beta/models/" ++ M ++ ":generateContent") := by
      rw [apiUrl_eq, hE, hM]
    rw [recognize_of_key base64 lang options config _ ts gc hcfg hurl hkey hts hgc]
    cases options.utils.http.fetch (str (E ++ "/v1beta/models/" ++ M ++ ":generateContent"))
      (request (E ++ "/v1beta/models/" ++ M ++ ":generateContent") config.apiKey
        (options.utils.http.Body.json (payload base64 ts gc))) <;> exact ⟨_, rfl⟩
  refine ⟨?_, hall, ?_, ?_, rfl, rfl, rfl, rfl⟩
  · intro call hcall
    cases hE : chosen config.endpoint defaultEndpoint with
    | none =>
      have : apiUrl config.endpoint config.model = none := by rw [apiUrl_eq, hE]
      simp [recognize, hcfg, this] at hcall
    | some E =>
      cases hM : chosen config.model defaultModel with
      | none =>
        have : apiUrl config.endpoint config.model = none := by rw [apiUrl_eq, hE, hM]
        simp [recognize, hcfg, this] at hcall
      | some M =>
        refine ⟨E, M, rfl, rfl, ?_⟩
        have hurl : apiUrl config.endpoint config.model =
            some (E ++ "/v1beta/models/" ++ M ++ ":generateContent") := by
          rw [apiUrl_eq, hE, hM]
        cases hts : tools config.googleSearch with
        | none => simp [recognize, hcfg, hurl, hkey, hts] at hcall
        | some ts =>
          cases hgc : generationConfig config.Thinking config.temperature with
          | none => simp [recognize, hcfg, hurl, hkey, hts, hgc] at hcall
          | some gc =>
            obtain ⟨req, hreq⟩ := hall E M ts gc hE hM hts hgc
            rw [hreq] at hcall
            simp only [List.mem_singleton] at hcall
            rw [hcall]
  · intro e he
    simp [chosen, ToBoolean, JSValue.ToString, he]
  · intro m hm
    simp [chosen, ToBoolean, JSValue.ToString, hm]

/-- The URL of the call at a configured endpoint and the default model. -/
theorem url_of_call_witness :
    destructure (keyAnd (str "k") "endpoint" (str "https://proxy.example")) =
      some ⟨str "https://proxy.example", undefined, str "k", undefined, undefined,
        undefined⟩ ∧
    ∃ req, (recognize (str "AAAA") (str "en")
        ⟨keyAnd (str "k") "endpoint" (str "https://proxy.example"),
          hostRejecting (str "timeout")⟩).calls =
      [(str ("https://proxy.example" ++ "/v1beta/models/" ++ "gemini-flash-lite" ++
        ":generateContent"), req)] :=
  ⟨rfl, (url_of_call (str "AAAA") (str "en")
    ⟨keyAnd (str "k") "endpoint" (str "https://proxy.example"), hostRejecting (str "timeout")⟩
    ⟨str "https://proxy.example", undefined, str "k", undefined, undefined, undefined⟩
    rfl rfl).2.1 _ _ _ _ rfl rfl rfl rfl⟩

/-- C5, counterexample: with `endpoint` present and equal to the empty string, the URL
passed to `fetch` starts with the default base URL; it is not the URL built from the
configured (empty) endpoint.  With `endpoint` an object with an own property `toString`
no URL is passed to `fetch` at all. -/
theorem url_counterexample :
    (getOpt (keyAnd (str "k") "endpoint" (str "")) "endpoint").isUndefined = false ∧
    (recognize (str "AAAA") (str "en")
        ⟨keyAnd (str "k") "endpoint" (str ""), hostRejecting (str "timeout")⟩).calls.map
      (fun call => JSValue.ToString call.1) =
      [some "https://generativelanguage.googleapis.com/v1beta/models/gemini-flash-lite:generateContent"] ∧
    chosenIfPresent (str "") defaultEndpoint = some "" ∧
    (recognize (str "AAAA") (str "en")
        ⟨keyAnd (str "k") "endpoint" (str ""), hostRejecting (str "timeout")⟩).calls.map
      (fun call => JSValue.ToString call.1) ≠
      [some ("" ++ "/v1beta/models/" ++ "gemini-flash-lite" ++ ":generateContent")] ∧
    (recognize (str "AAAA") (str "en")
        ⟨keyAnd (str "k") "endpoint" unconvertible, hostRejecting (str "timeout")⟩).calls =
      [] := by
  exact ⟨rfl, by decide, rfl, by decide, rfl⟩

/-- The constants of the request exist when the five configuration values they convert
are not arrays or objects. -/
theorem constants_primitive (config : Config)
    (h1 : config.endpoint.isPrimitive = true) (h2 : config.model.isPrimitive = true)
    (h3 : config.googleSearch.isPrimitive = true) (h4 : config.Thinking.isPrimitive = true)
    (h5 : config.temperature.isPrimitive = true) :
    apiUrl config.endpoint config.model ≠ none ∧ tools config.googleSearch ≠ none ∧
    generationConfig config.Thinking config.temperature ≠ none := by
  refine ⟨apiUrl_primitive _ _ h1 h2, ?_, ?_⟩
  · obtain ⟨s, hs⟩ := Option.ne_none_iff_exists'.mp (toString_primitive _ h3)
    simp [tools, hs]
  · obtain ⟨s, hs⟩ := Option.ne_none_iff_exists'.mp (toString_primitive _ h4)
    have h6 : (config.temperature.nullish (str "1")).isPrimitive = true := by
      unfold JSValue.nullish
      split_ifs
      · rfl
      · exact h5
    obtain ⟨n, hn⟩ := Option.ne_none_iff_exists'.mp (toNumber_primitive _ h6)
    simp [generationConfig, hs, hn]

/-- C9, as amended: with a truthy `apiKey`, when the conversions of `endpoint`, `model`,
`googleSearch`, `temperature` and `Thinking` do not throw (they never do for values that
are not arrays or objects), `fetch` is called exactly once, whatever it answers, and the
request of that call has method `POST`, the two headers `Content-Type:
application/json` and `X-goog-api-key: apiKey`, the body `Body.json(payload)` and the
timeout `60000`; when a conversion throws, `recognize` fails with a `TypeError` and
`fetch` is not called. -/
theorem fetch_called_once (base64 lang : JSValue) (options : Options) (config : Config)
    (hcfg : destructure options.config = some config)
    (hkey : config.apiKey.ToBoolean = true) :
    (∀ url ts gc, apiUrl config.endpoint config.model = some url →
      tools config.googleSearch = some ts →
      generationConfig config.Thinking config.temperature = some gc →
      ∃ req, (recognize base64 lang options).calls = [(str url, req)] ∧
        lookup (propsOf req) "method" = str "POST" ∧
        lookup (propsOf req) "headers" =
          obj [("Content-Type", str "application/json"), ("X-goog-api-key", config.apiKey)] ∧
        lookup (propsOf req) "body" = options.utils.http.Body.json (payload base64 ts gc) ∧
        lookup (propsOf req) "timeout" = num (JSNumber.ofNat 60000)) ∧
    ((apiUrl config.endpoint config.model = none ∨ tools config.googleSearch = none ∨
        generationConfig config.Thinking config.temperature = none) →
      (recognize base64 lang options).calls = [] ∧
      (recognize base64 lang options).completion = .typeError) ∧
    (config.endpoint.isPrimitive = true → config.model.isPrimitive = true →
      config.googleSearch.isPrimitive = true → config.Thinking.isPrimitive = true →
      config.temperature.isPrimitive = true →
      ∃ call, (recognize base64 lang options).calls = [call]) := by
  have hone : ∀ url ts gc, apiUrl config.endpoint config.model = some url →
      tools config.googleSearch = some ts →
      generationConfig config.Thinking config.temperature = some gc →
      ∃ req, (recognize base64 lang options).calls = [(str url, req)] ∧
        lookup (propsOf req) "method" = str "POST" ∧
        lookup (propsOf req) "headers" =
          obj [("Content-Type", str "application/json"), ("X-goog-api-key", config.apiKey)] ∧
        lookup (propsOf req) "body" = options.utils.http.Body.json (payload base64 ts gc) ∧
        lookup (propsOf req) "timeout" = num (JSNumber.ofNat 60000) := by
    intro url ts gc hurl hts hgc
    refine ⟨request url config.apiKey (options.utils.http.Body.json (payload base64 ts gc)),
      ?_, rfl, rfl, rfl, rfl⟩
    rw [recognize_of_key base64 lang options config url ts gc hcfg hurl hkey hts hgc]
    cases options.utils.http.fetch (str url) (request url config.apiKey
      (options.utils.http.Body.json (payload base64 ts gc))) <;> rfl
  refine ⟨hone, ?_, ?_⟩
  · intro h
    cases hurl : apiUrl config.endpoint config.model with
    | none => simp [recognize, hcfg, hurl]
    | some url =>
      cases hts : tools config.googleSearch with
      | none => simp [recognize, hcfg, hurl, hkey, hts]
      | some ts =>
        cases hgc : generationConfig config.Thinking config.temperature with
        | none => simp [recognize, hcfg, hurl, hkey, hts, hgc]
        | some gc => simp [hurl, hts, hgc] at h
  · intro h1 h2 h3 h4 h5
    obtain ⟨a, b, c⟩ := constants_primitive config h1 h2 h3 h4 h5
    obtain ⟨url, hurl⟩ := Option.ne_none_iff_exists'.mp a
    obtain ⟨ts, hts⟩ := Option.ne_none_iff_exists'.mp b
    obtain ⟨gc, hgc⟩ := Option.ne_none_iff_exists'.mp c
    obtain ⟨req, hreq, _⟩ := hone url ts gc hurl hts hgc
    exact ⟨_, hreq⟩

/-- The single call at a host whose `fetch` rejects. -/
theorem fetch_called_once_witness :
    destructure (keyOnly (str "k")) =
      some ⟨undefined, undefined, str "k", undefined, undefined, undefined⟩ ∧
    ∃ call, (recognize (str "AAAA") (str "en")
        ⟨keyOnly (str "k"), hostRejecting (str "timeout")⟩).calls = [call] :=
  ⟨rfl, (fetch_called_once (str "AAAA") (str "en")
    ⟨keyOnly (str "k"), hostRejecting (str "timeout")⟩
    ⟨undefined, undefined, str "k", undefined, undefined, undefined⟩ rfl rfl).2.2
    rfl rfl rfl rfl rfl⟩

/-- C9, counterexample: with the key `k` and `googleSearch` an object with an own
property `toString`, `String(googleSearch)` throws before the call: `fetch` is called
zero times and `recognize` fails with a `TypeError`. -/
theorem no_call_counterexample :
    (getOpt (keyAnd (str "k") "googleSearch" unconvertible) "apiKey").ToBoolean = true ∧
    (recognize (str "AAAA") (str "en")
      ⟨keyAnd (str "k") "googleSearch" unconvertible, hostResolving (okResponse null)⟩).calls
      = [] ∧
    (recognize (str "AAAA") (str "en")
      ⟨keyAnd (str "k") "googleSearch" unconvertible,
        hostResolving (okResponse null)⟩).completion = .typeError :=
  ⟨rfl, rfl, rfl⟩

/-- Every decimal digit prints as a digit character. -/
theorem digitChar_isDigit : ∀ d < 10, JSNumber.isDigit (digitChar d) = true := by decide

/-- The digits collected by `decDigitsAux` are digit characters. -/
theorem decDigitsAux_digits (fuel n : Nat) (acc : List Char)
    (hacc : ∀ c ∈ acc, JSNumber.isDigit c = true) :
    ∀ c ∈ decDigitsAux fuel n acc, JSNumber.isDigit c = true := by
  induction fuel generalizing n acc with
  | zero => simpa [decDigitsAux] using hacc
  | succ fuel ih =>
    unfold decDigitsAux
    by_cases h : n < 10
    · simp only [h, if_true]
      intro c hc
      rcases List.mem_cons.mp hc with rfl | hc
      · exact digitChar_isDigit n h
      · exact hacc c hc
    · simp only [h, if_false]
      apply ih
      intro c hc
      rcases List.mem_cons.mp hc with rfl | hc
      · exact digitChar_isDigit _ (Nat.mod_lt _ (by decide))
      · exact hacc c hc

/-- The decimal digits of a number are digit characters. -/
theorem decDigits_digits (n : Nat) : ∀ c ∈ decDigits n, JSNumber.isDigit c = true :=
  decDigitsAux_digits 400 n [] (by simp)

/-- The letter `b` is not laid out by `Number::toString`. -/
theorem layout_no_b (ds : List Char) (n : Int) (hds : ∀ c ∈ ds, JSNumber.isDigit c = true) :
    'b' ∉ JSNumber.layout ds n := by
  have hd : 'b' ∉ ds := fun h => by have := hds _ h; revert this; decide
  have hdd : ∀ m, 'b' ∉ decDigits m := fun m h => by
    have := decDigits_digits m _ h; revert this; decide
  have htake : ∀ k, 'b' ∉ ds.take k := fun k h => hd (List.mem_of_mem_take h)
  have hdrop : ∀ k, 'b' ∉ ds.drop k := fun k h => hd (List.mem_of_mem_drop h)
  have htail : 'b' ∉ ds.tail := fun h => hd (List.mem_of_mem_tail h)
  unfold JSNumber.layout
  simp only
  split_ifs <;>
    simp [List.mem_append, List.mem_replicate, hd, hdd, htake, hdrop, htail]

/-- No Number converts to the string `enable`. -/
theorem number_toString_ne_enable (x : JSNumber) : x.toString ≠ "enable" := by
  intro h
  have hb : 'b' ∈ x.toString.data := by rw [h]; decide
  have hone : ∀ c ∈ ['1'], JSNumber.isDigit c = true := by decide
  cases x with
  | nan => exact absurd hb (by decide)
  | inf neg => cases neg <;> exact absurd hb (by decide)
  | fin neg expo frac =>
    unfold JSNumber.toString at hb
    simp only at hb
    split_ifs at hb with h0 h1 h2 h3
    · exact absurd hb (by decide)
    · simp [layout_no_b _ _ hone] at hb
    · simp [layout_no_b _ _ (decDigits_digits _)] at hb
    · simp [layout_no_b _ _ hone] at hb
    · simp [layout_no_b _ _ (decDigits_digits _)] at hb

/-- The join of an array with at least two elements has a comma. -/
theorem joinComma_comma (x y : JSValue) (rest : List JSValue) (s : String)
    (h : joinComma (x :: y :: rest) = some s) : ',' ∈ s.data := by
  rw [joinComma] at h
  split at h
  · cases h
    simp [String.data_append]
  · cases h

/-- An array converts to `enable` only as the array of one element that does. -/
theorem array_toString_enable (items : List JSValue) :
    JSValue.ToString (arr items) = some "enable" ↔
      ∃ w, items = [w] ∧ JSValue.ToString w = some "enable" := by
  rw [JSValue.ToString]
  constructor
  · intro h
    match items, h with
    | [], h => simp [joinComma] at h
    | [w], h =>
      refine ⟨w, rfl, ?_⟩
      rw [joinComma, joinComma] at h
      by_cases hw : w.isNullish = true
      · simp [hw] at h
      · cases hs : JSValue.ToString w with
        | none => simp [hw, hs] at h
        | some s =>
          simp only [hw, hs, Bool.false_eq_true, if_false, List.isEmpty_nil, if_true,
            Option.some.injEq] at h
          rw [← h]
          congr 1
          apply String.ext
          simp [String.data_append]
    | x :: y :: rest, h =>
      exact absurd (joinComma_comma x y rest _ h) (by decide)
  · rintro ⟨w, rfl, hw⟩
    rw [joinComma, joinComma]
    have hn : w.isNullish = false := by
      cases w <;> simp_all [isNullish, JSValue.ToString]
    simp only [hn, hw, Bool.false_eq_true, if_false, List.isEmpty_nil, if_true,
      Option.some.injEq]
    apply String.ext
    simp [String.data_append]

/-- The values whose string conversion is `enable`: the string itself, and an array
whose only element is such a value. -/
theorem toString_enable_iff (v : JSValue) :
    JSValue.ToString v = some "enable" ↔
      v = str "enable" ∨ ∃ w, v = arr [w] ∧ JSValue.ToString w = some "enable" := by
  cases v with
  | undefined => simp [JSValue.ToString]
  | null => simp [JSValue.ToString]
  | bool b => cases b <;> simp [JSValue.ToString]
  | num n => simpa [JSValue.ToString] using number_toString_ne_enable n
  | str s => simp [JSValue.ToString]
  | arr items => simpa using array_toString_enable items
  | obj props =>
    by_cases h : hasOwn props "toString" = true <;> simp [JSValue.ToString, h]

/-- The payload of a configuration is assembled from its tools and its generation
parameters. -/
theorem payloadOf_some (base64 : JSValue) (config : Config) (p : JSValue)
    (hp : payloadOf base64 config = some p) :
    ∃ s t u, JSValue.ToString config.googleSearch = some s ∧
      ToNumber (config.temperature.nullish (str "1")) = some t ∧
      JSValue.ToString config.Thinking = some u ∧
      p = payload base64
        ([if s = "enable" then obj [("googleSearch", obj [])] else null].filter ToBoolean)
        (obj ([("temperature", num t)] ++
          (if u = "enable" then
            [("thinkingConfig", obj [("thinkingBudget", num (JSNumber.ofFraction true 1 1))])]
           else []))) := by
  unfold payloadOf tools generationConfig at hp
  cases hs : JSValue.ToString config.googleSearch with
  | none => simp [hs] at hp
  | some s =>
    cases ht : ToNumber (config.temperature.nullish (str "1")) with
    | none => simp [hs, ht] at hp
    | some t =>
      cases hu : JSValue.ToString config.Thinking with
      | none => simp [hs, ht, hu] at hp
      | some u =>
        simp only [hs, ht, hu, Option.some.injEq] at hp
        exact ⟨s, t, u, rfl, rfl, rfl, hp.symm⟩

/-- C6, as amended: the payload has the field `tools`, holding exactly the one search
tool entry, exactly when the string conversion `String(googleSearch)` equals `"enable"`;
otherwise it has no field `tools`.  The conversion is `"enable"` for the string
`"enable"` and for an array whose only element converts to `"enable"` (such as
`["enable"]`), and for no other value: not for `undefined`, `"disable"` or `true`. -/
theorem tools_iff_string_enable (base64 : JSValue) (config : Config) (p : JSValue)
    (hp : payloadOf base64 config = some p) :
    hasOwn (propsOf p) "tools" =
      decide (JSValue.ToString config.googleSearch = some "enable") ∧
    lookup (propsOf p) "tools" =
      (if JSValue.ToString config.googleSearch = some "enable" then arr [searchTool]
       else undefined) ∧
    (JSValue.ToString config.googleSearch = some "enable" ↔
      config.googleSearch = str "enable" ∨
      ∃ w, config.googleSearch = arr [w] ∧ JSValue.ToString w = some "enable") ∧
    JSValue.ToString undefined ≠ some "enable" ∧
    JSValue.ToString (str "disable") ≠ some "enable" ∧
    JSValue.ToString (bool true) ≠ some "enable" ∧
    JSValue.ToString (arr [str "enable"]) = some "enable" := by
  obtain ⟨s, t, u, hs, _, _, rfl⟩ := payloadOf_some base64 config p hp
  refine ⟨?_, ?_, toString_enable_iff _, by decide, by decide, by decide, by decide⟩
  · by_cases h : s = "enable"
    · simp [payload, hs, h, propsOf, hasOwn, ToBoolean]
    · simp [payload, hs, h, propsOf, hasOwn, ToBoolean]
  · by_cases h : s = "enable"
    · simp [payload, hs, h, propsOf, lookup, ToBoolean, searchTool]
    · simp [payload, hs, h, propsOf, lookup, ToBoolean]

/-- The payload with the search tool at the string `enable`. -/
theorem tools_iff_string_enable_witness :
    (payloadOf (str "AAAA")
      ⟨undefined, undefined, str "k", str "enable", undefined, undefined⟩).isSome = true ∧
    ∀ p, payloadOf (str "AAAA")
        ⟨undefined, undefined, str "k", str "enable", undefined, undefined⟩ = some p →
      hasOwn (propsOf p) "tools" = true :=
  ⟨rfl, fun p hp => (tools_iff_string_enable (str "AAAA")
    ⟨undefined, undefined, str "k", str "enable", undefined, undefined⟩ p hp).1⟩

/-- C6, counterexample: `googleSearch` set to the array `["enable"]`, a value that is not
a string, still puts the field `tools` with the search tool into the payload. -/
theorem tools_array_counterexample :
    (payloadOf (str "AAAA")
      ⟨undefined, undefined, str "k", arr [str "enable"], undefined, undefined⟩).map
      (fun p => hasOwn (propsOf p) "tools") = some true ∧
    (payloadOf (str "AAAA")
      ⟨undefined, undefined, str "k", arr [str "enable"], undefined, undefined⟩).map
      (fun p => lookup (propsOf p) "tools") = some (arr [searchTool]) :=
  ⟨rfl, rfl⟩

/-- C7, as amended: the generation parameters have the field `thinkingConfig`, equal to
`{ thinkingBudget: -1 }`, exactly when the string conversion `String(Thinking)` equals
`"enable"`; otherwise they have no field `thinkingConfig` at all.  The conversion is
`"enable"` for the string `"enable"` and for an array whose only element converts to
`"enable"` (such as `["enable"]`), and for no other value: not for `undefined`,
`"disable"` or `true`. -/
theorem thinking_iff_string_enable (base64 : JSValue) (config : Config) (p : JSValue)
    (hp : payloadOf base64 config = some p) :
    hasOwn (generationOf p) "thinkingConfig" =
      decide (JSValue.ToString config.Thinking = some "enable") ∧
    lookup (generationOf p) "thinkingConfig" =
      (if JSValue.ToString config.Thinking = some "enable" then unlimitedThinking
       else undefined) ∧
    lookup (propsOf unlimitedThinking) "thinkingBudget" = num (JSNumber.ofFraction true 1 1) ∧
    (JSNumber.ofFraction true 1 1).toString = "-1" ∧
    (JSValue.ToString config.Thinking = some "enable" ↔
      config.Thinking = str "enable" ∨
      ∃ w, config.Thinking = arr [w] ∧ JSValue.ToString w = some "enable") ∧
    JSValue.ToString undefined ≠ some "enable" ∧
    JSValue.ToString (str "disable") ≠ some "enable" ∧
    JSValue.ToString (bool true) ≠ some "enable" ∧
    JSValue.ToString (arr [str "enable"]) = some "enable" := by
  obtain ⟨s, t, u, _, _, hu, rfl⟩ := payloadOf_some base64 config p hp
  refine ⟨?_, ?_, rfl, by decide, toString_enable_iff _, by decide, by decide, by decide,
    by decide⟩
  · by_cases h : u = "enable" <;> by_cases g : s = "enable" <;>
      simp [generationOf, payload, hu, h, g, propsOf, hasOwn, lookup, ToBoolean]
  · by_cases h : u = "enable" <;> by_cases g : s = "enable" <;>
      simp [generationOf, payload, hu, h, g, propsOf, lookup, ToBoolean, unlimitedThinking]

/-- The generation parameters with the directive at the string `enable`. -/
theorem thinking_iff_string_enable_witness :
    (payloadOf (str "AAAA")
      ⟨undefined, undefined, str "k", undefined, str "enable", undefined⟩).isSome = true ∧
    ∀ p, payloadOf (str "AAAA")
        ⟨undefined, undefined, str "k", undefined, str "enable", undefined⟩ = some p →
      hasOwn (generationOf p) "thinkingConfig" = true :=
  ⟨rfl, fun p hp => (thinking_iff_string_enable (str "AAAA")
    ⟨undefined, undefined, str "k", undefined, str "enable", undefined⟩ p hp).1⟩

/-- C7, counterexample: `Thinking` set to the array `["enable"]`, a value that is not the
string `"enable"`, still puts `thinkingConfig` into the generation parameters. -/
theorem thinking_array_counterexample :
    (payloadOf (str "AAAA")
      ⟨undefined, undefined, str "k", undefined, arr [str "enable"], undefined⟩).map
      (fun p => hasOwn (generationOf p) "thinkingConfig") = some true ∧
    (payloadOf (str "AAAA")
      ⟨undefined, undefined, str "k", undefined, arr [str "enable"], undefined⟩).map
      (fun p => lookup (generationOf p) "thinkingConfig") = some unlimitedThinking :=
  ⟨rfl, rfl⟩

/-- The default `'1'` of the temperature converts to the Number one. -/
theorem toNumber_default : ToNumber (str "1") = some (JSNumber.ofNat 1) := by decide

/-- C8, as amended: `generationConfig.temperature` is `1` when `config.temperature` is
absent (`undefined` or `null`) and `Number(config.temperature)` otherwise: the value
itself for a number, the numeric value of a numeric string (`"0.5"` gives `0.5`), and
`NaN` for a string that is no numeric literal (`"abc"`). -/
theorem temperature_value (base64 : JSValue) (config : Config) (p : JSValue)
    (hp : payloadOf base64 config = some p) :
    some (lookup (generationOf p) "temperature") =
      (if config.temperature.isNullish then some (JSNumber.ofNat 1)
       else ToNumber config.temperature).map num ∧
    (∀ n : JSNumber, ToNumber (num n) = some n) ∧
    ToNumber (str "0.5") = some (JSNumber.ofFraction false 1 2) ∧
    (JSNumber.ofFraction false 1 2).toString = "0.5" ∧
    (JSNumber.ofNat 1).toString = "1" ∧
    ToNumber (str "abc") = some JSNumber.nan := by
  obtain ⟨s, t, u, _, ht, _, rfl⟩ := payloadOf_some base64 config p hp
  refine ⟨?_, fun n => rfl, by decide, by decide, by decide, by decide⟩
  have hl : lookup (generationOf (payload base64
      ([if s = "enable" then obj [("googleSearch", obj [])] else null].filter ToBoolean)
      (obj ([("temperature", num t)] ++
        (if u = "enable" then
          [("thinkingConfig", obj [("thinkingBudget", num (JSNumber.ofFraction true 1 1))])]
         else []))))) "temperature" = num t := by
    by_cases h : u = "enable" <;> by_cases g : s = "enable" <;>
      simp [generationOf, payload, h, g, propsOf, lookup, ToBoolean]
  rw [hl]
  by_cases h : config.temperature.isNullish = true
  · simp only [JSValue.nullish, h, if_true, toNumber_default, Option.some.injEq] at ht
    simp [h, ht]
  · simp only [JSValue.nullish, h, Bool.false_eq_true, if_false] at ht
    simp [h, ht]

/-- The temperature `0.5` of the configured string `"0.5"`. -/
theorem temperature_value_witness :
    (payloadOf (str "AAAA")
      ⟨undefined, undefined, str "k", undefined, undefined, str "0.5"⟩).isSome = true ∧
    ∀ p, payloadOf (str "AAAA")
        ⟨undefined, undefined, str "k", undefined, undefined, str "0.5"⟩ = some p →
      some (lookup (generationOf p) "temperature") =
        (ToNumber (str "0.5")).map num :=
  ⟨rfl, fun p hp => (temperature_value (str "AAAA")
    ⟨undefined, undefined, str "k", undefined, undefined, str "0.5"⟩ p hp).1⟩

/-- C8, counterexample: a temperature that cannot be converted to a number, the string
`"abc"`, gives the temperature `NaN` in the payload, which is not `1`. -/
theorem temperature_not_coercible_counterexample :
    (payloadOf (str "AAAA")
      ⟨undefined, undefined, str "k", undefined, undefined, str "abc"⟩).map
      (fun p => lookup (generationOf p) "temperature") = some (num JSNumber.nan) ∧
    JSNumber.nan ≠ JSNumber.ofNat 1 := by
  exact ⟨rfl, by decide⟩

/-- Reading a property of a truthy value does not throw. -/
theorem get_of_truthy (v : JSValue) (name : String) (h : v.ToBoolean = true) :
    v.get name = some (v.getOpt name) := by
  cases v <;> simp_all [JSValue.get, JSValue.getOpt, ToBoolean]

/-- Reading a property of a value other than `undefined` and `null` does not throw. -/
theorem get_of_not_nullish (v : JSValue) (name : String) (h : v.isNullish = false) :
    v.get name = some (v.getOpt name) := by
  cases v <;> simp_all [JSValue.get, JSValue.getOpt, isNullish]

/-- Reading a property of `undefined` or `null` throws. -/
theorem get_of_nullish (v : JSValue) (name : String) (h : v.isNullish = true) :
    v.get name = none := by
  cases v <;> simp_all [JSValue.get, isNullish]

/-- The guard of `recognize` never throws: it tests three values for truthiness. -/
theorem lacksContent_eq (candidate : JSValue) :
    lacksContent candidate = some (!candidate.ToBoolean ||
      !(candidate.getOpt "content").ToBoolean ||
      !((candidate.getOpt "content").getOpt "parts").ToBoolean) := by
  unfold lacksContent
  by_cases h1 : candidate.ToBoolean = true
  · rw [get_of_truthy _ _ h1]
    by_cases h2 : (candidate.getOpt "content").ToBoolean = true
    · simp [h1, h2, get_of_truthy _ _ h2]
    · simp [h1, h2]
  · simp [h1]

/-- Mapping `part.text` over parts none of which is `undefined` or `null` succeeds. -/
theorem textsOf_some (items : List JSValue) (h : ∀ p ∈ items, p.isNullish = false) :
    textsOf items = some (items.map (fun p => p.getOpt "text")) := by
  induction items with
  | nil => rfl
  | cons p ps ih =>
    have hp := h p (List.mem_cons_self _ _)
    have hps : ∀ q ∈ ps, q.isNullish = false := fun q hq => h q (List.mem_cons_of_mem _ hq)
    simp [textsOf, get_of_not_nullish _ _ hp, ih hps]

/-- Mapping `part.text` over parts one of which is `undefined` or `null` throws. -/
theorem textsOf_none (items : List JSValue) (h : ∃ p ∈ items, p.isNullish = true) :
    textsOf items = none := by
  induction items with
  | nil => simp at h
  | cons p ps ih =>
    by_cases hp : p.isNullish = true
    · simp [textsOf, get_of_nullish _ _ hp]
    · have hp2 : p.isNullish = false := by simpa using hp
      obtain ⟨q, hq, hqn⟩ := h
      rcases List.mem_cons.mp hq with rfl | hq2
      · exact absurd hqn hp
      · simp [textsOf, get_of_not_nullish _ _ hp2, ih ⟨q, hq2, hqn⟩]

/-- The call `parts.map(...)` succeeds only on an array without `undefined` or `null`
entries. -/
theorem mapText_some (parts : JSValue) (texts : List JSValue)
    (h : mapText parts = some texts) :
    ∃ items, parts = arr items ∧ ∀ p ∈ items, p.isNullish = false := by
  cases parts with
  | arr items =>
    refine ⟨items, rfl, ?_⟩
    intro p hp
    by_contra hn
    have hn2 : p.isNullish = true := by simpa using hn
    have := textsOf_none items ⟨p, hp, hn2⟩
    simp [mapText, this] at h
  | _ => simp [mapText] at h

/-- The loop of `String.intercalate` with the empty separator appends the strings. -/
theorem intercalate_go_empty (acc : String) (l : List String) :
    String.intercalate.go acc "" l = acc ++ String.join l := by
  induction l generalizing acc with
  | nil => simp [String.intercalate.go, String.join]
  | cons a as ih =>
    simp only [String.intercalate.go, ih]
    apply String.ext
    simp [String.join_eq, String.data_append]

/-- Joining with the empty separator is concatenation. -/
theorem intercalate_empty (l : List String) : String.intercalate "" l = String.join l := by
  cases l with
  | nil => rfl
  | cons a as =>
    simp only [String.intercalate, intercalate_go_empty]
    apply String.ext
    simp [String.join_eq, String.data_append]

/-- Concatenation takes the first string and then the rest. -/
theorem string_join_cons (a : String) (l : List String) :
    String.join (a :: l) = a ++ String.join l := by
  apply String.ext
  simp [String.join_eq, String.data_append]

/-- A truthy value is neither `undefined` nor `null`. -/
theorem not_nullish_of_truthy (v : JSValue) (h : v.ToBoolean = true) : v.isNullish = false := by
  cases v <;> simp_all [ToBoolean, isNullish]

/-- Joining with the empty separator the truthy texts of the parts is concatenating,
part by part, the string of the text of a part or nothing; the one throws exactly when
the other does. -/
theorem join_texts (items : List JSValue) :
    join ((items.map (fun p => p.getOpt "text")).filter ToBoolean) "" =
      (partTexts items).map String.join := by
  unfold JSValue.join
  induction items with
  | nil => rfl
  | cons p ps ih =>
    by_cases h : (p.getOpt "text").ToBoolean = true
    · simp only [List.map_cons, List.filter_cons, h, if_true, elementStrings,
        not_nullish_of_truthy _ h, Bool.false_eq_true, if_false, partTexts, partText]
      cases ht : JSValue.ToString (p.getOpt "text") with
      | none => rfl
      | some a =>
        cases he : elementStrings (List.filter ToBoolean
            (List.map (fun p => p.getOpt "text") ps)) with
        | none =>
          rw [he] at ih
          cases hq : partTexts ps with
          | none => rfl
          | some ts => rw [hq] at ih; cases ih
        | some as =>
          rw [he] at ih
          cases hq : partTexts ps with
          | none => rw [hq] at ih; cases ih
          | some ts =>
            rw [hq] at ih
            simp only [Option.map_some', Option.some.injEq] at ih ⊢
            rw [intercalate_empty] at ih ⊢
            rw [string_join_cons, string_join_cons, ih]
    · simp only [List.map_cons, List.filter_cons, h, Bool.false_eq_true, if_false, partTexts,
        partText]
      rw [ih]
      cases hq : partTexts ps with
      | none => rfl
      | some ts =>
        simp only [Option.map_some', Option.some.injEq]
        rw [string_join_cons]
        apply String.ext
        simp [String.data_append]

/-- Parts whose texts are not arrays or objects all contribute a string. -/
theorem partTexts_primitive (items : List JSValue)
    (h : ∀ p ∈ items, (getOpt p "text").isPrimitive = true) : partTexts items ≠ none := by
  induction items with
  | nil => simp [partTexts]
  | cons p ps ih =>
    have hp := h p (List.mem_cons_self _ _)
    have hps := ih (fun q hq => h q (List.mem_cons_of_mem _ hq))
    obtain ⟨ts, hts⟩ := Option.ne_none_iff_exists'.mp hps
    have hpt : partText p ≠ none := by
      unfold partText
      split_ifs
      · exact toString_primitive _ hp
      · simp
    obtain ⟨t, ht⟩ := Option.ne_none_iff_exists'.mp hpt
    simp [partTexts, ht, hts]

/-- The trimmed text does not begin with white space. -/
theorem trim_no_leading (s : String) (c : Char) (h : (trim s).data.head? = some c) :
    isWhiteSpace c = false := by
  unfold trim trimEnd at h
  simp only at h
  have hpre : ((trimStart s.data).reverse.dropWhile isWhiteSpace).reverse <+: trimStart s.data := by
    rw [← List.reverse_suffix, List.reverse_reverse]
    exact List.dropWhile_suffix _
  obtain ⟨r, hr⟩ := hpre
  have hhead : (trimStart s.data).head? = some c := by
    rw [← hr]
    cases hx : ((trimStart s.data).reverse.dropWhile isWhiteSpace).reverse with
    | nil => rw [hx] at h; simp at h
    | cons x xs => rw [hx] at h; simpa using h
  have := List.head?_dropWhile_not isWhiteSpace s.data
  unfold trimStart at hhead
  rw [hhead] at this
  exact this

/-- The trimmed text does not end with white space. -/
theorem trim_no_trailing (s : String) (c : Char) (h : (trim s).data.getLast? = some c) :
    isWhiteSpace c = false := by
  unfold trim trimEnd at h
  simp only [List.getLast?_reverse] at h
  have := List.head?_dropWhile_not isWhiteSpace (trimStart s.data).reverse
  rw [h] at this
  exact this

/-- A text of white space only trims to the empty string. -/
theorem trim_whitespace (s : String) (h : ∀ c ∈ s.data, isWhiteSpace c = true) :
    trim s = "" := by
  unfold trim trimStart
  have : List.dropWhile isWhiteSpace s.data = [] := List.dropWhile_eq_nil_iff.mpr h
  rw [this]
  rfl

/-- The ok branch of `interpret`: the guard on the first candidate, then the mapping of
the parts, then the joined and trimmed text. -/
theorem interpret_ok (response : Response) (hok : response.ok = true) :
    interpret response =
      if (!(firstCandidate response.data).ToBoolean || !(contentOf response.data).ToBoolean ||
          !(partsOf response.data).ToBoolean) = true then
        .thrown (str noContentMessage)
      else
        match mapText (partsOf response.data) with
        | none => .typeError
        | some texts =>
          match join (texts.filter ToBoolean) "" with
          | none => .typeError
          | some joined => .returned (trim joined) := by
  unfold interpret
  simp only [hok, if_true, lacksContent_eq]
  by_cases h1 : (firstCandidate response.data).ToBoolean = true
  · by_cases h2 : (contentOf response.data).ToBoolean = true
    · by_cases h3 : (partsOf response.data).ToBoolean = true
      · have e1 := get_of_truthy _ "content" h1
        have e2 := get_of_truthy _ "parts" h2
        unfold contentOf at h2 e2
        unfold partsOf contentOf at h3
        unfold firstCandidate at h1 h2 h3 e1 e2
        simp [firstCandidate, contentOf, partsOf, h1, h2, h3, e1, e2]
      · unfold contentOf at h2
        unfold partsOf contentOf at h3
        unfold firstCandidate at h1 h2 h3
        simp [firstCandidate, contentOf, partsOf, h1, h2, h3]
    · unfold contentOf at h2
      unfold firstCandidate at h1 h2
      simp [firstCandidate, contentOf, partsOf, h1, h2]
  · unfold firstCandidate at h1
    simp [firstCandidate, contentOf, partsOf, h1]

/-- An array of parts reached through the first candidate makes the guard pass. -/
theorem guard_of_parts (data : JSValue) (items : List JSValue)
    (h : partsOf data = arr items) :
    (!(firstCandidate data).ToBoolean || !(contentOf data).ToBoolean ||
      !(partsOf data).ToBoolean) = false := by
  have h3 : (partsOf data).ToBoolean = true := by rw [h]; rfl
  have h2 : (contentOf data).ToBoolean = true := by
    unfold partsOf at h
    cases hc : contentOf data <;> rw [hc] at h <;> simp_all [JSValue.getOpt, ToBoolean]
  have h1 : (firstCandidate data).ToBoolean = true := by
    unfold partsOf contentOf at h
    cases hc : firstCandidate data <;> rw [hc] at h <;> simp_all [JSValue.getOpt, ToBoolean]
  simp [h1, h2, h3]

/-- An ok response whose parts are an array without `undefined` or `null` entries
resolves to the trimmed concatenation of the texts of the parts, or fails with a
`TypeError` when a text cannot be converted. -/
theorem interpret_parts (response : Response) (items : List JSValue)
    (hok : response.ok = true) (hparts : partsOf response.data = arr items)
    (hitems : ∀ p ∈ items, p.isNullish = false) :
    interpret response =
      match partTexts items with
      | none => .typeError
      | some texts => .returned (trim (String.join texts)) := by
  rw [interpret_ok response hok, guard_of_parts _ _ hparts]
  simp only [Bool.false_eq_true, if_false, hparts, mapText, textsOf_some items hitems,
    join_texts]
  cases partTexts items <;> rfl

/-- A property list without the own property `name` reads as `undefined`. -/
theorem lookup_of_not_hasOwn (props : List (String × JSValue)) (name : String)
    (h : hasOwn props name = false) : lookup props name = undefined := by
  unfold hasOwn at h
  unfold lookup
  have : props.find? (fun p => p.1 == name) = none := by
    rw [List.find?_eq_none]
    intro p hp
    have := List.any_eq_false.mp h p hp
    simpa using this
  rw [this]

/-- Past the guard, an ok response either has parts that are an array without
`undefined` or `null` entries, and completes with their texts, or the mapping of the
parts throws. -/
theorem interpret_passed (response : Response) (hok : response.ok = true)
    (g : (!(firstCandidate response.data).ToBoolean || !(contentOf response.data).ToBoolean ||
          !(partsOf response.data).ToBoolean) = false) :
    (∃ items, partsOf response.data = arr items ∧ (∀ p ∈ items, p.isNullish = false) ∧
      interpret response =
        match partTexts items with
        | none => .typeError
        | some texts => .returned (trim (String.join texts))) ∨
    ((¬ ∃ items, partsOf response.data = arr items ∧ (∀ p ∈ items, p.isNullish = false)) ∧
      interpret response = .typeError) := by
  cases hm : mapText (partsOf response.data) with
  | none =>
    right
    constructor
    · rintro ⟨items, hparts, hitems⟩
      rw [hparts] at hm
      simp [mapText, textsOf_some items hitems] at hm
    · rw [interpret_ok response hok, g]
      simp [hm]
  | some texts =>
    left
    obtain ⟨items, hparts, hitems⟩ := mapText_some _ _ hm
    exact ⟨items, hparts, hitems, interpret_parts response items hok hparts hitems⟩

/-- C3, as amended: for a response with `ok = true`, `recognize` throws the "no valid
content" message exactly when the first candidate, its content, or the parts of the
content are missing or falsy (in particular when `candidates` is absent or empty).  In
every other case it resolves to a string exactly when the parts are an array without
`undefined` or `null` entries whose truthy texts all convert to strings (texts that are
not arrays or objects always do), and to the empty string when the parts are empty or
their texts are white space only; otherwise a `TypeError` is raised. -/
theorem no_content_iff (base64 lang : JSValue) (options : Options) (url req : JSValue)
    (response : Response)
    (hcall : (recognize base64 lang options).calls = [(url, req)])
    (hfetch : options.utils.http.fetch url req = .ok response)
    (hok : response.ok = true) :
    ((recognize base64 lang options).completion = .thrown (str noContentMessage) ↔
      ((firstCandidate response.data).ToBoolean = false ∨
       (contentOf response.data).ToBoolean = false ∨
       (partsOf response.data).ToBoolean = false)) ∧
    ((getOpt response.data "candidates" = undefined ∨
        getOpt response.data "candidates" = arr []) →
      (recognize base64 lang options).completion = .thrown (str noContentMessage)) ∧
    ((∃ s, (recognize base64 lang options).completion = .returned s) ↔
      ∃ items, partsOf response.data = arr items ∧ (∀ p ∈ items, p.isNullish = false) ∧
        partTexts items ≠ none) ∧
    (∀ items, (∀ p ∈ items, (getOpt p "text").isPrimitive = true) → partTexts items ≠ none) ∧
    (∀ items texts, partsOf response.data = arr items → (∀ p ∈ items, p.isNullish = false) →
      partTexts items = some texts →
      (∀ c ∈ (String.join texts).data, isWhiteSpace c = true) →
      (recognize base64 lang options).completion = .returned "") ∧
    (partsOf response.data = arr [] →
      (recognize base64 lang options).completion = .returned "") ∧
    ((firstCandidate response.data).ToBoolean = true →
      (contentOf response.data).ToBoolean = true →
      (partsOf response.data).ToBoolean = true →
      (¬ ∃ items, partsOf response.data = arr items ∧ (∀ p ∈ items, p.isNullish = false) ∧
        partTexts items ≠ none) →
      (recognize base64 lang options).completion = .typeError) := by
  have hc := recognize_resolved base64 lang options url req response hcall hfetch
  have hi := interpret_ok response hok
  have hiff : (recognize base64 lang options).completion = .thrown (str noContentMessage) ↔
      ((firstCandidate response.data).ToBoolean = false ∨
       (contentOf response.data).ToBoolean = false ∨
       (partsOf response.data).ToBoolean = false) := by
    rw [hc]
    by_cases g : (!(firstCandidate response.data).ToBoolean ||
        !(contentOf response.data).ToBoolean || !(partsOf response.data).ToBoolean) = true
    · rw [hi, if_pos g]
      simp only [true_iff]
      simpa [or_assoc] using g
    · have g2 : ¬ ((firstCandidate response.data).ToBoolean = false ∨
          (contentOf response.data).ToBoolean = false ∨
          (partsOf response.data).ToBoolean = false) := by
        simpa [or_assoc] using g
      have g3 : (!(firstCandidate response.data).ToBoolean ||
        !(contentOf response.data).ToBoolean || !(partsOf response.data).ToBoolean) = false := by
        simpa using g
      constructor
      · intro h
        rcases interpret_passed response hok g3 with ⟨items, _, _, he⟩ | ⟨_, he⟩
        · rw [he] at h
          cases hq : partTexts items <;> rw [hq] at h <;> cases h
        · rw [he] at h
          cases h
      · intro h
        exact absurd h g2
  have hsucc : ∀ items, partsOf response.data = arr items →
      (∀ p ∈ items, p.isNullish = false) → ∀ texts, partTexts items = some texts →
      (recognize base64 lang options).completion = .returned (trim (String.join texts)) := by
    intro items hparts hitems texts ht
    rw [hc, interpret_parts response items hok hparts hitems, ht]
  have hret : (∃ s, (recognize base64 lang options).completion = .returned s) →
      ∃ items, partsOf response.data = arr items ∧ (∀ p ∈ items, p.isNullish = false) ∧
        partTexts items ≠ none := by
    rintro ⟨s, hs⟩
    rw [hc] at hs
    by_cases g : (!(firstCandidate response.data).ToBoolean ||
        !(contentOf response.data).ToBoolean || !(partsOf response.data).ToBoolean) = true
    · rw [hi, if_pos g] at hs
      cases hs
    · have g3 : (!(firstCandidate response.data).ToBoolean ||
        !(contentOf response.data).ToBoolean || !(partsOf response.data).ToBoolean) = false := by
        simpa using g
      rcases interpret_passed response hok g3 with ⟨items, hparts, hitems, he⟩ | ⟨_, he⟩
      · refine ⟨items, hparts, hitems, ?_⟩
        intro hnone
        rw [he, hnone] at hs
        cases hs
      · rw [he] at hs
        cases hs
  refine ⟨hiff, ?_, ⟨hret, ?_⟩, partTexts_primitive, ?_, ?_, ?_⟩
  · intro h
    apply hiff.mpr
    left
    rcases h with h | h <;> simp [firstCandidate, h, getOpt0, ToBoolean]
  · rintro ⟨items, hparts, hitems, hsome⟩
    obtain ⟨texts, ht⟩ := Option.ne_none_iff_exists'.mp hsome
    exact ⟨_, hsucc items hparts hitems texts ht⟩
  · intro items texts hparts hitems ht hws
    rw [hsucc items hparts hitems texts ht, trim_whitespace _ hws]
  · intro hparts
    rw [hsucc [] hparts (by simp) [] rfl]
    rfl
  · intro h1 h2 h3 hno
    have g3 : (!(firstCandidate response.data).ToBoolean ||
        !(contentOf response.data).ToBoolean || !(partsOf response.data).ToBoolean) = false := by
      simp [h1, h2, h3]
    rw [hc]
    rcases interpret_passed response hok g3 with ⟨items, hparts, hitems, he⟩ | ⟨_, he⟩
    · rw [he]
      cases ht : partTexts items with
      | none => rfl
      | some ts => exact absurd ⟨items, hparts, hitems, by simp [ht]⟩ hno
    · exact he

/-- The "no valid content" failure at an empty list of candidates. -/
theorem no_content_iff_witness :
    (∃ url req, (recognize (str "AAAA") (str "en")
      (optionsResolving (okResponse (dataWithCandidates [])))).calls = [(url, req)]) ∧
    (okResponse (dataWithCandidates [])).ok = true ∧
    (recognize (str "AAAA") (str "en")
      (optionsResolving (okResponse (dataWithCandidates [])))).completion =
        .thrown (str noContentMessage) :=
  ⟨⟨_, _, rfl⟩, rfl, (no_content_iff (str "AAAA") (str "en")
    (optionsResolving (okResponse (dataWithCandidates []))) _ _
    (okResponse (dataWithCandidates [])) rfl rfl rfl).2.1 (Or.inr rfl)⟩

/-- C3, counterexample: three ok responses whose first candidate has content with truthy
parts neither fail with the "no valid content" message nor resolve to a string, but
raise a `TypeError`: the parts `[null]` (reading `text` of `null`), the parts `"abc"`
(a string has no method `map`), and the parts `[{ text: { toString: 1 } }]` (the text
cannot be converted by `join`). -/
theorem parts_type_error_counterexample :
    (partsOf (dataWithCandidates [candidateWithParts (arr [null])])).ToBoolean = true ∧
    (runOnParts (arr [null])).completion = .typeError ∧
    (partsOf (dataWithCandidates [candidateWithParts (str "abc")])).ToBoolean = true ∧
    (runOnParts (str "abc")).completion = .typeError ∧
    (partsOf (dataWithCandidates
      [candidateWithParts (arr [obj [("text", unconvertible)]])])).ToBoolean = true ∧
    (runOnParts (arr [obj [("text", unconvertible)]])).completion = .typeError :=
  ⟨rfl, rfl, rfl, rfl, rfl, rfl⟩

/-- C4, as amended: for an ok response whose first candidate has content with parts that
are an array without `undefined` or `null` entries and whose truthy texts convert to
strings, `recognize` resolves to the texts of these parts concatenated in order without
separator (a part without text contributes nothing; only the first candidate is read)
and then trimmed; the result neither begins nor ends with white space; the parts `Hello`
and ` World` give `Hello World`. -/
theorem result_is_trimmed_concatenation (base64 lang : JSValue) (options : Options)
    (url req : JSValue) (response : Response) (items : List JSValue) (texts : List String)
    (hcall : (recognize base64 lang options).calls = [(url, req)])
    (hfetch : options.utils.http.fetch url req = .ok response)
    (hok : response.ok = true) (hparts : partsOf response.data = arr items)
    (hitems : ∀ p ∈ items, p.isNullish = false)
    (htexts : partTexts items = some texts) :
    (recognize base64 lang options).completion = .returned (trim (String.join texts)) ∧
    (∀ c, (trim (String.join texts)).data.head? = some c → isWhiteSpace c = false) ∧
    (∀ c, (trim (String.join texts)).data.getLast? = some c → isWhiteSpace c = false) ∧
    (∀ text, partText (textPart text) = some text) ∧
    (∀ props, hasOwn props "text" = false → partText (obj props) = some "") ∧
    (∀ first rest, firstCandidate (dataWithCandidates (first :: rest)) = first) ∧
    partTexts [textPart "Hello", textPart " World"] = some ["Hello", " World"] ∧
    trim (String.join ["Hello", " World"]) = "Hello World" := by
  refine ⟨?_, fun c h => trim_no_leading _ c h, fun c h => trim_no_trailing _ c h, ?_, ?_,
    fun first rest => rfl, by decide, by decide⟩
  · rw [recognize_resolved base64 lang options url req response hcall hfetch,
      interpret_parts response items hok hparts hitems, htexts]
  · intro text
    by_cases h : text = ""
    · subst h; rfl
    · simp [partText, textPart, JSValue.getOpt, lookup, ToBoolean, JSValue.ToString, h]
  · intro props h
    simp [partText, JSValue.getOpt, lookup_of_not_hasOwn props "text" h, ToBoolean]

/-- The result `Hello World` at a response with two candidates, the first with the parts
`Hello` and ` World`. -/
theorem result_is_trimmed_concatenation_witness :
    (okResponse (dataWithCandidates [candidateWithParts (arr [textPart "Hello",
      textPart " World"]), candidateWithParts (arr [textPart "other"])])).ok = true ∧
    (recognize (str "AAAA") (str "en") (optionsResolving (okResponse (dataWithCandidates
      [candidateWithParts (arr [textPart "Hello", textPart " World"]),
       candidateWithParts (arr [textPart "other"])])))).completion =
      .returned (trim (String.join ["Hello", " World"])) :=
  ⟨rfl, (result_is_trimmed_concatenation (str "AAAA") (str "en")
    (optionsResolving (okResponse (dataWithCandidates
      [candidateWithParts (arr [textPart "Hello", textPart " World"]),
       candidateWithParts (arr [textPart "other"])]))) _ _
    (okResponse (dataWithCandidates
      [candidateWithParts (arr [textPart "Hello", textPart " World"]),
       candidateWithParts (arr [textPart "other"])]))
    [textPart "Hello", textPart " World"] ["Hello", " World"] rfl rfl rfl rfl
    (by intro p hp; simp at hp; rcases hp with rfl | rfl <;> rfl) rfl).1⟩

/-- C4, counterexample: three ok responses whose first candidate has content with parts
have no result but raise a `TypeError`: the parts `{ text: "Hello" }`, an object in
place of an array; the parts `[{ text: "Hello" }, null]`, with a `null` entry; and the
parts `[{ text: "Hello" }, { text: { toString: 1 } }]`, with a text that cannot be
converted. -/
theorem parts_no_result_counterexample :
    partsOf (dataWithCandidates [candidateWithParts (textPart "Hello")]) = textPart "Hello" ∧
    (runOnParts (textPart "Hello")).completion = .typeError ∧
    partsOf (dataWithCandidates [candidateWithParts (arr [textPart "Hello", null])]) =
      arr [textPart "Hello", null] ∧
    (runOnParts (arr [textPart "Hello", null])).completion = .typeError ∧
    partsOf (dataWithCandidates [candidateWithParts
      (arr [textPart "Hello", obj [("text", unconvertible)]])]) =
      arr [textPart "Hello", obj [("text", unconvertible)]] ∧
    (runOnParts (arr [textPart "Hello", obj [("text", unconvertible)]])).completion =
      .typeError :=
  ⟨rfl, rfl, rfl, rfl, rfl, rfl⟩

end Gemini
